import Mathlib

/-!
Verification of the HKA account connector (Odoo module integrating electronic
invoicing with The Factory HKA OSE/PSE).

The development shallowly embeds the relevant parts of the source:

* `src/models/account_move.py` : payload construction (`_prepare_hka_*`),
  detraction computation (`_compute_total_detraction`), the submission state
  machine (`_send_to_hka`, `_handle_retry`), the pending-send domain
  (`_domain_pending_send`) and the cron loop (`_cron_send_hka`);
* `src/services/hka_connector.py` : the connector client (`authenticate`,
  `_ensure_token`, `send_document`, `download_file`);
* `src/models/hka_connector_config.py` : the token cache (`get_singleton`).

Monetary values are modelled as rationals; Python float formatting
`f"{x:.2f}"` and `round(x, 2)` are modelled as exact rounding half-to-even at
two decimals.  Dates are a civil calendar record; the relativedelta month/day
addition is implemented with month normalisation, day clamping, and epoch-day
arithmetic.  Wire payloads are a small JSON value type.
-/

namespace HKA

/-! ## Decimal rendering of numbers -/

/-- Round half-to-even of the fraction `n / d` (`d` positive), as used by
Python `round` and by `%.2f` float formatting on the scaled value. -/
def rhe2 (n : Int) (d : Int) : Int :=
  if 2 * Int.emod n d < d then Int.ediv n d
  else if d < 2 * Int.emod n d then Int.ediv n d + 1
  else if Int.emod (Int.ediv n d) 2 = 0 then Int.ediv n d
  else Int.ediv n d + 1

/-- The number of cents of a rational amount, rounded half-to-even: the
integer nearest to `100 * q`. -/
def cents (q : ℚ) : Int :=
  rhe2 (100 * q.num) (q.den : Int)

/-- Python `round(x, 2)`: round to two decimal places. -/
def round2 (q : ℚ) : ℚ :=
  ((cents q : Int) : ℚ) / 100

/-- Decimal digit characters of a natural number, via the standard library
fuel-based digit printer. -/
def natChars (n : Nat) : List Char :=
  Nat.toDigits 10 n

/-- Decimal rendering of a natural number. -/
def natStr (n : Nat) : String :=
  String.mk (natChars n)

/-- Decimal rendering of an integer, with a leading minus sign when
negative. -/
def intStr (n : Int) : String :=
  if n < 0 then String.mk ('-' :: natChars n.natAbs) else natStr n.natAbs

/-- Rendering of a signed amount of cents with exactly two digits after the
decimal point, the way Python `f-string` formatting `:.2f` renders the
rounded value. -/
def fmtCents (c : Int) : String :=
  String.mk ((if c < 0 then ['-'] else []) ++ natChars (c.natAbs / 100) ++
    ['.', Nat.digitChar (c.natAbs % 100 / 10), Nat.digitChar (c.natAbs % 10)])

/-- Python `f"{x:.2f}"` on a monetary value: round half-to-even to two
decimals and render with exactly two digits after the decimal point. -/
def fmt2 (q : ℚ) : String :=
  fmtCents (cents q)

/-- Number of characters strictly after the last dot of the list (counted on
the reversed character list: characters before the first dot). -/
def afterDot : List Char → Nat
  | [] => 0
  | c :: cs => if c = '.' then 0 else afterDot cs + 1

/-- Number of characters after the last `.` of a string. -/
def decCount (s : String) : Nat :=
  afterDot s.data.reverse

/-- Whether a character list contains a dot. -/
def hasDotL : List Char → Bool
  | [] => false
  | c :: cs => c = '.' || hasDotL cs

/-- A string renders a value with exactly two digits after the decimal
point. -/
def twoDecStr (s : String) : Prop :=
  hasDotL s.data = true ∧ decCount s = 2

lemma digitChar_ne_dot {n : Nat} (h : n < 10) : Nat.digitChar n ≠ '.' := by
  interval_cases n <;> decide

lemma hasDotL_append (l1 l2 : List Char) :
    hasDotL (l1 ++ l2) = (hasDotL l1 || hasDotL l2) := by
  induction l1 with
  | nil => rfl
  | cons c cs ih => simp [hasDotL, ih, Bool.or_assoc]

/-- Every string produced by the cent renderer has a decimal dot and exactly
two digits after it, for all amounts: zero, negative, and arbitrarily
large. -/
theorem fmtCents_twoDec (c : Int) : twoDecStr (fmtCents c) := by
  have h1 : Nat.digitChar (c.natAbs % 100 / 10) ≠ '.' := by
    apply digitChar_ne_dot
    have : c.natAbs % 100 < 100 := Nat.mod_lt _ (by norm_num)
    omega
  have h2 : Nat.digitChar (c.natAbs % 10) ≠ '.' := by
    apply digitChar_ne_dot
    exact Nat.mod_lt _ (by norm_num)
  constructor
  · show hasDotL ((if c < 0 then ['-'] else []) ++ natChars (c.natAbs / 100) ++
      ['.', Nat.digitChar (c.natAbs % 100 / 10), Nat.digitChar (c.natAbs % 10)]) = true
    rw [hasDotL_append, hasDotL_append]
    simp [hasDotL]
  · show afterDot ((if c < 0 then ['-'] else []) ++ natChars (c.natAbs / 100) ++
      ['.', Nat.digitChar (c.natAbs % 100 / 10), Nat.digitChar (c.natAbs % 10)]).reverse = 2
    simp only [List.reverse_append, List.reverse_cons, List.reverse_nil,
      List.nil_append, List.append_assoc, List.cons_append, List.singleton_append]
    simp only [afterDot, if_neg h2, if_neg h1]
    simp

theorem fmt2_twoDec (q : ℚ) : twoDecStr (fmt2 q) :=
  fmtCents_twoDec (cents q)

lemma rhe2_one (n : Int) : rhe2 n 1 = n := by
  unfold rhe2
  rw [show Int.emod n 1 = 0 from Int.emod_one n,
    show Int.ediv n 1 = n from Int.ediv_one n]
  norm_num

lemma cents_intCast (n : Int) : cents ((n : Int) : ℚ) = 100 * n := by
  simp [cents, Rat.num_intCast, Rat.den_intCast, rhe2_one]

lemma fmt2_intCast (n : Int) : fmt2 ((n : Int) : ℚ) = fmtCents (100 * n) := by
  rw [fmt2, cents_intCast]

lemma round2_intCast (n : Int) : round2 ((n : Int) : ℚ) = ((n : Int) : ℚ) := by
  rw [round2, cents_intCast]
  push_cast
  ring

/-! ## String helpers -/

/-- Python `x or default` on an optional string field: an Odoo Char field is
falsy when absent or empty, in which case the default applies. -/
def pyOr (o : Option String) (d : String) : String :=
  match o with
  | none => d
  | some s => if s.isEmpty then d else s

/-- Whether an optional string field is falsy (absent or empty), as tested
by Python `not x` / `if x:`. -/
def strFalsy (o : Option String) : Bool :=
  match o with
  | none => true
  | some s => s.isEmpty

def splitFirstAux (sep : Char) : List Char → Option (List Char × List Char)
  | [] => none
  | c :: cs =>
    if c = sep then some ([], cs)
    else (splitFirstAux sep cs).map (fun p => (c :: p.1, p.2))

/-- Python `s.split(sep, 1)` when it yields two parts: the text before the
first occurrence of the separator and everything after it; `none` when the
separator does not occur. -/
def splitFirst (sep : Char) (s : String) : Option (String × String) :=
  (splitFirstAux sep s.data).map (fun p => (String.mk p.1, String.mk p.2))

/-- Python `str.strip`: drop leading and trailing whitespace. -/
def stripChars (l : List Char) : List Char :=
  ((l.dropWhile Char.isWhitespace).reverse.dropWhile Char.isWhitespace).reverse

def stripStr (s : String) : String :=
  String.mk (stripChars s.data)

/-- Python `re.sub` of one or more whitespace characters by a single space:
each maximal whitespace run collapses to one space. -/
def collapseWs : List Char → List Char
  | [] => []
  | [c] => [if c.isWhitespace then ' ' else c]
  | c :: c2 :: rest =>
    if c.isWhitespace && c2.isWhitespace then collapseWs (c2 :: rest)
    else (if c.isWhitespace then ' ' else c) :: collapseWs (c2 :: rest)

/-- Normalisation applied to each narration paragraph: strip, then collapse
internal whitespace (`_prepare_hka_information`). -/
def cleanLine (s : String) : String :=
  String.mk (collapseWs (stripChars s.data))

/-! ## Dates and times -/

/-- A civil calendar date (Python `datetime.date`). -/
structure Date where
  year : Int
  month : Int
  day : Int
deriving DecidableEq

def isLeap (y : Int) : Bool :=
  (Int.emod y 4 = 0 && Int.emod y 100 ≠ 0) || Int.emod y 400 = 0

def daysInMonth (y m : Int) : Int :=
  if m = 2 then (if isLeap y then 29 else 28)
  else if m = 4 ∨ m = 6 ∨ m = 9 ∨ m = 11 then 30
  else 31

/-- Month shift with day clamping, as `dateutil.relativedelta` applies its
`months` component. -/
def addMonths (d : Date) (m : Int) : Date :=
  let t := d.year * 12 + (d.month - 1) + m
  let y := Int.fdiv t 12
  let mo := Int.emod t 12 + 1
  ⟨y, mo, min d.day (daysInMonth y mo)⟩

/-- Days since the civil epoch 1970-01-01 (standard civil-calendar
conversion). -/
def toEpoch (d : Date) : Int :=
  let y := if d.month ≤ 2 then d.year - 1 else d.year
  let era := Int.fdiv y 400
  let yoe := y - era * 400
  let mp := Int.emod (d.month + 9) 12
  let doy := Int.fdiv (153 * mp + 2) 5 + d.day - 1
  let doe := yoe * 365 + Int.fdiv yoe 4 - Int.fdiv yoe 100 + doy
  era * 146097 + doe - 719468

/-- Civil date of an epoch day count (inverse of `toEpoch`). -/
def fromEpoch (z0 : Int) : Date :=
  let z := z0 + 719468
  let era := Int.fdiv z 146097
  let doe := z - era * 146097
  let yoe := Int.fdiv (doe - Int.fdiv doe 1460 + Int.fdiv doe 36524 -
    Int.fdiv doe 146096) 365
  let y := yoe + era * 400
  let doy := doe - (365 * yoe + Int.fdiv yoe 4 - Int.fdiv yoe 100)
  let mp := Int.fdiv (5 * doy + 2) 153
  let dd := doy - Int.fdiv (153 * mp + 2) 5 + 1
  let mm := mp + (if mp < 10 then 3 else -9)
  ⟨y + (if mm ≤ 2 then 1 else 0), mm, dd⟩

/-- `date + relativedelta(months=m, days=d)`: months first (with clamping),
then days. -/
def addRelative (d : Date) (months days : Int) : Date :=
  fromEpoch (toEpoch (addMonths d months) + days)

/-- Left-pad the decimal rendering of a natural number with zeros up to the
given width (Python `%02d` style formatting). -/
def padNat (width : Nat) (n : Nat) : String :=
  String.mk (List.replicate (width - (natChars n).length) '0' ++ natChars n)

/-- Python `strftime("%Y-%m-%d")`. -/
def fmtDate (d : Date) : String :=
  padNat 4 d.year.natAbs ++ "-" ++ padNat 2 d.month.natAbs ++ "-" ++
    padNat 2 d.day.natAbs

/-- A wall-clock time of day, the value observed from `datetime.now()` after
timezone adjustment. -/
structure Time where
  hour : Nat
  minute : Nat
  second : Nat
deriving DecidableEq

/-- Python `strftime("%H:%M:%S")`. -/
def fmtTime (t : Time) : String :=
  padNat 2 t.hour ++ ":" ++ padNat 2 t.minute ++ ":" ++ padNat 2 t.second

/-! ## JSON values -/

/-- A JSON-like wire value, the shape of the payload dictionaries the module
builds and of the responses it reads. -/
inductive JVal where
  | null : JVal
  | bool : Bool → JVal
  | str : String → JVal
  | num : ℚ → JVal
  | obj : List (String × JVal) → JVal
  | arr : List JVal → JVal

def jGetFields (key : String) : List (String × JVal) → Option JVal
  | [] => none
  | (k, v) :: rest => if k == key then some v else jGetFields key rest

/-- Lookup of a key in an object value (first match). -/
def jGet (key : String) : JVal → Option JVal
  | .obj fields => jGetFields key fields
  | _ => none

/-! ## Data model (the invoice data read by the payload builder) -/

structure InvoiceLine where
  name : String
  quantity : ℚ
  price_unit : ℚ
  price_subtotal : ℚ
  price_total : ℚ
  tax_amounts : List ℚ
  uom_code : String
deriving DecidableEq

structure PaymentTermLine where
  value : String
  value_amount : ℚ
  months : Int
  days : Int
deriving DecidableEq

structure PaymentTerm where
  id : Nat
  line_ids : List PaymentTermLine
deriving DecidableEq

structure DetractionType where
  code : String
  rate : ℚ
deriving DecidableEq

structure Company where
  id : Nat
  vat : Option String
  name : String
  street : Option String
  street2 : Option String
  city : Option String
  state_name : Option String
  country_code : Option String
  partner_zip : Option String
  hka_user : Option String
  hka_password : Option String
  hka_test_mode : Bool
deriving DecidableEq

structure Partner where
  vat_code : Option String
  vat : Option String
  name : String
  country_code : Option String
  state_name : Option String
  city : Option String
  street : Option String
deriving DecidableEq

/-- The invoice data the payload builder reads.  `narration` is modelled as
the list of paragraph blocks the lxml HTML extraction yields from the
rich-text note (`none` when the field is falsy);
`l10n_pe_edi_total_detraction` is the stored computed field. -/
structure Invoice where
  name : String
  invoice_date : Date
  invoice_date_due : Date
  l10n_latam_document_type_code : String
  l10n_pe_edi_operation_type_code : Option String
  company_id : Company
  partner_id : Partner
  invoice_line_ids : List InvoiceLine
  amount_total : ℚ
  amount_tax : ℚ
  amount_untaxed : ℚ
  currency_name : String
  invoice_payment_term_id : Option PaymentTerm
  narration : Option (List String)
  l10n_pe_edi_detraction_type_id : Option DetractionType
  l10n_pe_edi_detraction_payment_code : Option String
  l10n_pe_edi_detraction_bank_acc : Option String
  l10n_pe_edi_total_detraction : ℚ

/-! ## Payload builder (`account_move.py`) -/

/-- `_compute_total_detraction`: the stored detraction amount, recomputed
from the invoice total and the rate of the selected detraction type (the
source guard `rate or 0.0` maps a zero rate to itself). -/
def computeTotalDetraction (inv : Invoice) : ℚ :=
  match inv.l10n_pe_edi_detraction_type_id with
  | some dt => round2 (inv.amount_total * dt.rate / 100)
  | none => 0

/-- Python `int(q)`: truncation toward zero. -/
def ratTrunc (q : ℚ) : Int :=
  Int.tdiv q.num (q.den : Int)

/-- `_prepare_hka_header`, as the ordered key list of the header dict.
`serie, correlativo = self.name.split('-', 1)` raises when the display name
has no hyphen, hence the `Option`.  `now` is the timezone-adjusted
`datetime.now()` reading used for `horaEmision`. -/
def headerFields (inv : Invoice) (now : Time) :
    Option (List (String × JVal)) :=
  match splitFirst '-' inv.name with
  | none => none
  | some (serie, correlativo) => some
      [("fechaEmision", .str (fmtDate inv.invoice_date)),
       ("fechaVencimiento", .str (fmtDate inv.invoice_date_due)),
       ("horaEmision", .str (fmtTime now)),
       ("tipoDocumento", .str inv.l10n_latam_document_type_code),
       ("serie", .str serie),
       ("correlativo", .str correlativo),
       ("codigoTipoOperacion",
        .str (pyOr inv.l10n_pe_edi_operation_type_code "0101"))]

/-- `_prepare_hka_emisor`. -/
def prepareHkaEmisor (inv : Invoice) : JVal :=
  .obj [("ruc", .str (pyOr inv.company_id.vat "")),
        ("nombreComercial", .str inv.company_id.name),
        ("lugarExpedicion", .str "0000"),
        ("domicilioFiscal", .str (pyOr inv.company_id.street "")),
        ("urbanizacion", .str (pyOr inv.company_id.street2 "")),
        ("distrito", .str (pyOr inv.company_id.city "")),
        ("provincia", .str (pyOr inv.company_id.state_name "")),
        ("departamento", .str (pyOr inv.company_id.state_name "")),
        ("codigoPais", .str (pyOr inv.company_id.country_code "")),
        ("ubigeo", .str (pyOr inv.company_id.partner_zip ""))]

/-- `_prepare_hka_receptor`. -/
def prepareHkaReceptor (inv : Invoice) : JVal :=
  .obj [("tipoDocumento", .str (pyOr inv.partner_id.vat_code "")),
        ("numDocumento", .str (pyOr inv.partner_id.vat "")),
        ("razonSocial", .str inv.partner_id.name),
        ("notificar", .str "NO"),
        ("pais", .str (pyOr inv.partner_id.country_code "")),
        ("provincia", .str (pyOr inv.partner_id.state_name "")),
        ("departamento", .str (pyOr inv.partner_id.state_name "")),
        ("distrito", .str (pyOr inv.partner_id.city "")),
        ("direccion", .str (pyOr inv.partner_id.street ""))]

/-- One item dict of `_prepare_hka_items`: the unique nonzero tax rate of
the line (first of the filtered tax amounts, 0 when none), the tax amount
`base * igv_pct / 100`, and every monetary field through `:.2f`
formatting. -/
def itemObj (idx : Nat) (line : InvoiceLine) : JVal :=
  .obj [("numeroOrden", .str (natStr idx)),
        ("descripcion", .str line.name),
        ("cantidad", .str (intStr (ratTrunc line.quantity))),
        ("unidadMedida", .str line.uom_code),
        ("valorUnitarioBI", .str (fmt2 line.price_unit)),
        ("valorVentaItemQxBI", .str (fmt2 line.price_subtotal)),
        ("precioVentaUnitarioItem", .str (fmt2 line.price_total)),
        ("montoTotalImpuestoItem",
         .str (fmt2 (line.price_subtotal *
           ((line.tax_amounts.filter (fun a => decide (a ≠ 0))).headD 0) / 100))),
        ("IGV", .obj
          [("baseImponible", .str (fmt2 line.price_subtotal)),
           ("porcentaje",
            .str (fmt2 ((line.tax_amounts.filter (fun a => decide (a ≠ 0))).headD 0))),
           ("monto",
            .str (fmt2 (line.price_subtotal *
              ((line.tax_amounts.filter (fun a => decide (a ≠ 0))).headD 0) / 100))),
           ("tipo", .str "10")])]

/-- The `enumerate(self.invoice_line_ids, start=1)` loop of
`_prepare_hka_items`. -/
def itemsLoop (idx : Nat) : List InvoiceLine → List JVal
  | [] => []
  | l :: rest => itemObj idx l :: itemsLoop (idx + 1) rest

/-- `_prepare_hka_items`. -/
def prepareHkaItems (inv : Invoice) : List JVal :=
  itemsLoop 1 inv.invoice_line_ids

/-- `_prepare_hka_totals`. -/
def prepareHkaTotals (inv : Invoice) : JVal :=
  .obj [("importeTotalPagar", .str (fmt2 inv.amount_total)),
        ("importeTotalVenta", .str (fmt2 inv.amount_total)),
        ("montoTotalImpuestos", .str (fmt2 inv.amount_tax)),
        ("subtotalValorVenta", .str (fmt2 inv.amount_untaxed)),
        ("totalIGV", .str (fmt2 inv.amount_tax)),
        ("subtotal", .obj [("IGV", .str (fmt2 inv.amount_untaxed))])]

/-- `_prepare_hka_payment`. -/
def prepareHkaPayment (inv : Invoice) : JVal :=
  .obj [("fechaInicio", .str (fmtDate inv.invoice_date)),
        ("fechaFin", .str (fmtDate inv.invoice_date)),
        ("moneda", .str inv.currency_name),
        ("tipoCambio", .num (3.75 : ℚ))]

/-- The paragraph loop of `_prepare_hka_information`: normalise each block,
keep only blocks containing a colon, split those on the first colon into a
stripped title/value entry tagged with section "1". -/
def infoLoop : List String → List JVal
  | [] => []
  | p :: ps =>
    match splitFirst ':' (cleanLine p) with
    | some (k, v) =>
      JVal.obj [("seccion", .str "1"),
                ("titulo", .str (stripStr k)),
                ("valor", .str (stripStr v))] :: infoLoop ps
    | none => infoLoop ps

/-- `_prepare_hka_information`. -/
def prepareHkaInformation (narr : Option (List String)) : List JVal :=
  match narr with
  | none => []
  | some ps => infoLoop ps

/-- `_prepare_hka_detraction`: a one-element list; `monto` is the stored
detraction amount through `:.2f` formatting, while `porcentaje` is the raw
numeric rate of the detraction type (no formatting in the source).  Fields
read off an empty many2one are falsy. -/
def prepareHkaDetraction (inv : Invoice) : List JVal :=
  [.obj [("codigo",
          match inv.l10n_pe_edi_detraction_type_id with
          | some dt => .str dt.code
          | none => .bool false),
         ("medioPago",
          match inv.l10n_pe_edi_detraction_payment_code with
          | some c => .str c
          | none => .bool false),
         ("monto", .str (fmt2 inv.l10n_pe_edi_total_detraction)),
         ("numCuentaBancodelaNacion",
          .str (pyOr inv.l10n_pe_edi_detraction_bank_acc "")),
         ("porcentaje",
          match inv.l10n_pe_edi_detraction_type_id with
          | some dt => .num dt.rate
          | none => .bool false)]]

/-- `is_credit`: the invoice has a payment term and it differs from the
`account.account_payment_term_immediate` reference record (when that
reference is missing, any term record compares unequal to `False`). -/
def isCredit (immediateId : Option Nat) (inv : Invoice) : Bool :=
  match inv.invoice_payment_term_id with
  | none => false
  | some t =>
    match immediateId with
    | none => true
    | some i => t.id != i

/-- `net_amount = self.amount_total - self.l10n_pe_edi_total_detraction`. -/
def netAmount (inv : Invoice) : ℚ :=
  inv.amount_total - inv.l10n_pe_edi_total_detraction

/-- Stable insertion of a payment-term line into a list already sorted by
`days`.  The inserted line comes from earlier in the original list than
every line already placed (the sort folds from the right), so it goes
before lines with an equal day offset: it only walks past lines with a
strictly smaller offset.  This matches the stability of Python `sorted`,
which Odoo's `recordset.sorted(key)` uses. -/
def insertByDays (x : PaymentTermLine) :
    List PaymentTermLine → List PaymentTermLine
  | [] => [x]
  | y :: ys => if y.days < x.days then y :: insertByDays x ys else x :: y :: ys

/-- `line_ids.sorted(lambda l: l.days)`: stable sort by the day offset. -/
def sortByDays (ls : List PaymentTermLine) : List PaymentTermLine :=
  ls.foldr insertByDays []

/-- `f"Cuota{idx:03}"`. -/
def cuotaId (idx : Nat) : String :=
  "Cuota" ++ padNat 3 idx

/-- The per-line amount of the dues loop in `_prepare_hka_payment_method`:
`balance` takes the net amount minus what prior dues already allocated,
`percent` takes the rounded percentage of the net amount, `fixed` the
rounded configured amount, anything else zero. -/
def dueAmount (net allocated : ℚ) (l : PaymentTermLine) : ℚ :=
  if l.value == "balance" then net - allocated
  else if l.value == "percent" then round2 (net * l.value_amount / 100)
  else if l.value == "fixed" then round2 l.value_amount
  else 0

/-- The dues loop of `_prepare_hka_payment_method`: 1-based `idx` and the
running `total_allocated` accumulator. -/
def buildDues (d : Date) (net : ℚ) :
    List PaymentTermLine → Nat → ℚ → List JVal
  | [], _, _ => []
  | l :: rest, idx, allocated =>
    JVal.obj [("fechaPagoCuota",
               .str (fmtDate (addRelative d l.months l.days))),
              ("identificadorCuota", .str (cuotaId idx)),
              ("montoPagoCuota", .str (fmt2 (dueAmount net allocated l)))]
      :: buildDues d net rest (idx + 1) (allocated + dueAmount net allocated l)

/-- `_prepare_hka_payment_method`. -/
def prepareHkaPaymentMethod (immediateId : Option Nat) (inv : Invoice) :
    JVal :=
  if isCredit immediateId inv then
    match inv.invoice_payment_term_id with
    | some t =>
      .obj [("modoPago", .str "Credito"),
            ("montoNetoPendiente", .str (fmt2 (netAmount inv))),
            ("cuotasFactura",
             .arr (buildDues inv.invoice_date (netAmount inv)
               (sortByDays t.line_ids) 1 0))]
    | none => .obj []
  else
    .obj [("modoPago", .str "Contado"), ("montoNetoPendiente", .str "0")]

/-- `_prepare_hka_payload`: the merged dict, with `personalizacionPDF`
present only when the narration is truthy and `detraccion` only when a
detraction type is set. -/
def prepareHkaPayload (immediateId : Option Nat) (inv : Invoice)
    (now : Time) : Option JVal :=
  match headerFields inv now with
  | none => none
  | some hf => some (.obj
      ((hf ++
        [("emisor", prepareHkaEmisor inv),
         ("receptor", prepareHkaReceptor inv),
         ("facturaNegociable", prepareHkaPaymentMethod immediateId inv),
         ("producto", .arr (prepareHkaItems inv)),
         ("totales", prepareHkaTotals inv),
         ("pago", prepareHkaPayment inv)] ++
        (match inv.narration with
         | some _ =>
           [("personalizacionPDF", .arr (prepareHkaInformation inv.narration))]
         | none => []) ++
        (match inv.l10n_pe_edi_detraction_type_id with
         | some _ => [("detraccion", .arr (prepareHkaDetraction inv))]
         | none => []))))

/-! ## Submission state machine and cron loop (`account_move.py`) -/

inductive HkaStatus where
  | to_send
  | sent
  | accepted
  | rejected
deriving DecidableEq

/-- The integration-state fields of an invoice record mutated by the send
path, together with the record fields the pending-send domain filters on. -/
structure MoveState where
  hka_status : Option HkaStatus
  hka_cpe_number : Option String
  hka_sent_date : Option Int
  hka_error_msg : Option String
  hka_retry_count : Int
  hka_xml_file : Bool
  move_type : String
  journal_type : String
  state : String
deriving DecidableEq

/-- The fields of the send-endpoint response the module reads. -/
structure SendResp where
  estatus : Bool
  mensaje : Option String
  numeracion : Option String
  xml : Option String
deriving DecidableEq

/-- `_send_to_hka` given the remote response and the outcome of the
inline-XML step (`base64.b64decode` of the `xml` value plus the attachment
creation, which runs only for an accepted response with a truthy `xml` and
can itself raise, e.g. `binascii.Error` on malformed base64): on a falsy
`estatus` write status rejected with the remote message and return
`.ok false`; otherwise write status sent, the remote number and the send
timestamp, clear the error, then — when inline XML came back — run the
attachment step: on its success set the XML flag and return `.ok true`, on
its exception propagate it with the acceptance write already applied and
the flag not set. -/
def sendToHka (st : MoveState) (now : Int) (resp : SendResp)
    (attach : Except String Unit) : MoveState × Except String Bool :=
  if !resp.estatus then
    ({ st with hka_status := some .rejected, hka_error_msg := resp.mensaje },
     .ok false)
  else
    let st1 := { st with hka_status := some .sent,
                         hka_cpe_number := resp.numeracion,
                         hka_sent_date := some now,
                         hka_error_msg := none }
    if strFalsy resp.xml then (st1, .ok true)
    else
      match attach with
      | .ok _ => ({ st1 with hka_xml_file := true }, .ok true)
      | .error e => (st1, .error e)

/-- `_handle_retry`: on failure increment the retry count and, only while it
stays below 3, requeue to status to_send; on success reset the count. -/
def handleRetry (st : MoveState) (sent : Bool) : MoveState :=
  if !sent then
    let st1 := { st with hka_retry_count := st.hka_retry_count + 1 }
    if st1.hka_retry_count ≥ 3 then st1
    else { st1 with hka_status := some .to_send }
  else { st with hka_retry_count := 0 }

/-- `_domain_pending_send`: the filter selecting invoices for the send
cron. -/
def pendingSend (st : MoveState) : Bool :=
  decide (st.hka_status = some HkaStatus.to_send) &&
  st.move_type == "out_invoice" &&
  st.journal_type == "sale" &&
  st.state == "posted"

/-- The outcome of one send attempt as the `_cron_send_hka` loop observes
it: either an exception raised before any record write (during payload
construction or the HTTP send), or a parsed response together with the
outcome of the inline-XML attachment step that runs after the acceptance
write. -/
inductive SendOutcome where
  | earlyError (e : String)
  | response (resp : SendResp) (attach : Except String Unit)

/-- One iteration of the `_cron_send_hka` loop for one invoice: on a normal
return of `_send_to_hka` the result feeds `_handle_retry`; on an exception
the `except` branch records the message and increments the retry count on
whatever state the invoice record has reached — the pre-state for an
exception raised before any write, and the state after the acceptance
write when the inline-XML attachment step raised. -/
def cronProcessOne (st : MoveState) (now : Int) (outcome : SendOutcome) :
    MoveState :=
  match outcome with
  | .earlyError e =>
    { st with hka_error_msg := some e,
              hka_retry_count := st.hka_retry_count + 1 }
  | .response resp attach =>
    match sendToHka st now resp attach with
    | (st1, .ok sent) => handleRetry st1 sent
    | (st1, .error e) =>
      { st1 with hka_error_msg := some e,
                 hka_retry_count := st1.hka_retry_count + 1 }

/-- The `_cron_send_hka` batch loop over the selected invoices, each paired
with the outcome its send attempt produces. -/
def cronSendHka (now : Int)
    (batch : List (MoveState × SendOutcome)) : List MoveState :=
  batch.map (fun b => cronProcessOne b.1 now b.2)

/-! ## Token cache (`hka_connector_config.py`) and connector client
(`hka_connector.py`) -/

/-- One `hka.connector.config` record. -/
structure ConfigRec where
  token : Option String
  token_expiry : Option Int
deriving DecidableEq

/-- The table of `hka.connector.config` records.  The model has no company
field; `search([], limit=1)` returns its first record whatever company is
acting. -/
structure ConfigStore where
  recs : List ConfigRec
deriving DecidableEq

/-- `get_singleton`: the first record of an unfiltered search, created blank
when the table is empty. -/
def getSingleton (cfg : ConfigStore) : ConfigRec × ConfigStore :=
  match cfg.recs with
  | r :: _ => (r, cfg)
  | [] => (⟨none, none⟩, ⟨[⟨none, none⟩]⟩)

/-- `get_singleton().write({token, token_expiry})` as performed by
`authenticate`. -/
def writeSingleton (cfg : ConfigStore) (tok : String) (exp : Int) :
    ConfigStore :=
  match (getSingleton cfg).2.recs with
  | r :: rest =>
    ⟨{ r with token := some tok, token_expiry := some exp } :: rest⟩
  | [] => ⟨[]⟩

/-- The in-memory attributes of an `HKAConnector` instance. -/
structure ConnState where
  ruc : Option String
  user : Option String
  password : Option String
  test_mode : Bool
  token : Option String
  token_expiry : Option Int
deriving DecidableEq

/-- `HKAConnector.__init__` acting for the given company: company
credentials plus the token and expiry read from the singleton config. -/
def connectorInit (c : Company) (cfg : ConfigStore) : ConnState :=
  { ruc := c.vat,
    user := c.hka_user,
    password := c.hka_password,
    test_mode := c.hka_test_mode,
    token := (getSingleton cfg).1.token,
    token_expiry := (getSingleton cfg).1.token_expiry }

/-- The cached token the connector of a given company observes. -/
def cachedTokenOf (c : Company) (cfg : ConfigStore) : Option String :=
  (connectorInit c cfg).token

/-- The cached expiry the connector of a given company observes. -/
def cachedExpiryOf (c : Company) (cfg : ConfigStore) : Option Int :=
  (connectorInit c cfg).token_expiry

/-- The possible outcomes of the authentication POST as the code observes
them: a transport error from `requests.post`, a non-2xx status raised by
`raise_for_status`, an unparsable body raised by `resp.json()`, or a parsed
JSON dictionary of string fields. -/
inductive AuthResp where
  | transportError (msg : String)
  | httpError (status : Nat)
  | badJson
  | json (fields : List (String × String))
deriving DecidableEq

def lookupStr (key : String) : List (String × String) → Option String
  | [] => none
  | (k, v) :: rest => if k == key then some v else lookupStr key rest

def d2n (a b : Char) : Nat :=
  (a.toNat - 48) * 10 + (b.toNat - 48)

/-- `datetime.strptime(value, "%Y-%m-%d %H:%M:%S")`, as epoch seconds;
`none` models the `ValueError` raised on a malformed value. -/
def parseDateTime (s : String) : Option Int :=
  match s.data with
  | [y1, y2, y3, y4, g1, m1, m2, g2, d1, d2, g3, h1, h2, g4, n1, n2, g5,
     e1, e2] =>
    if g1 == '-' && g2 == '-' && g3 == ' ' && g4 == ':' && g5 == ':' &&
        y1.isDigit && y2.isDigit && y3.isDigit && y4.isDigit &&
        m1.isDigit && m2.isDigit && d1.isDigit && d2.isDigit &&
        h1.isDigit && h2.isDigit && n1.isDigit && n2.isDigit &&
        e1.isDigit && e2.isDigit then
      let y := d2n y1 y2 * 100 + d2n y3 y4
      let mo := d2n m1 m2
      let da := d2n d1 d2
      let ho := d2n h1 h2
      let mi := d2n n1 n2
      let se := d2n e1 e2
      if 1 ≤ mo && mo ≤ 12 && 1 ≤ da &&
          (da : Int) ≤ daysInMonth (y : Int) (mo : Int) &&
          ho ≤ 23 && mi ≤ 59 && se ≤ 59 then
        some (toEpoch ⟨(y : Int), (mo : Int), (da : Int)⟩ * 86400 +
          ((ho * 3600 + mi * 60 + se : Nat) : Int))
      else none
    else none
  | _ => none

/-- `HKAConnector.authenticate` given the HTTP outcome.  The third component
is the propagated exception: on a transport error, HTTP error, unparsable
body, missing field or unparsable expiry the state and store come back
unchanged; only after both fields parse are the singleton config and the
in-memory copy replaced. -/
def authenticate (st : ConnState) (cfg : ConfigStore) (resp : AuthResp) :
    ConnState × ConfigStore × Option String :=
  match resp with
  | .transportError m => (st, cfg, some m)
  | .httpError code => (st, cfg, some ("HTTPError " ++ natStr code))
  | .badJson => (st, cfg, some "JSONDecodeError")
  | .json fields =>
    match lookupStr "fechaExpiracion" fields with
    | none => (st, cfg, some "KeyError fechaExpiracion")
    | some fe =>
      match parseDateTime fe with
      | none => (st, cfg, some "ValueError strptime")
      | some expiry =>
        match lookupStr "token" fields with
        | none => (st, cfg, some "KeyError token")
        | some tok =>
          ({ st with token := some tok, token_expiry := some expiry },
           writeSingleton cfg tok expiry, none)

/-- `authenticate` as run by the connector a company instantiated: the
resulting store and the propagated error, if any. -/
def authenticateAs (c : Company) (cfg : ConfigStore) (resp : AuthResp) :
    ConfigStore × Option String :=
  ((authenticate (connectorInit c cfg) cfg resp).2.1,
   (authenticate (connectorInit c cfg) cfg resp).2.2)

/-- The condition of `_ensure_token`: token falsy, or expiry falsy, or
`datetime.now() >= token_expiry`. -/
def needsAuth (st : ConnState) (now : Int) : Bool :=
  strFalsy st.token ||
  (match st.token_expiry with
   | none => true
   | some e => decide (e ≤ now))

/-- `_ensure_token`, with a successful authentication abstracted by the
token/expiry pair the endpoint returns: the refreshed state and the number
of `authenticate` calls made (0 or 1). -/
def ensureToken (st : ConnState) (now : Int) (auth : String × Int) :
    ConnState × Nat :=
  if needsAuth st now then
    ({ st with token := some auth.1, token_expiry := some auth.2 }, 1)
  else (st, 0)

/-- `send_document`: ensure the token first, then build and POST the body
with the current token.  Returns the connector state, the number of
`authenticate` calls, and the request body. -/
def sendDocument (st : ConnState) (now : Int) (auth : String × Int)
    (payload : JVal) : ConnState × Nat × JVal :=
  ((ensureToken st now auth).1, (ensureToken st now auth).2,
   .obj [("documentoElectronico", payload),
         ("ruc",
          match (ensureToken st now auth).1.ruc with
          | some r => .str r
          | none => .null),
         ("token",
          match (ensureToken st now auth).1.token with
          | some t => .str t
          | none => .null)])

/-- `download_file`: ensure the token first, then POST the download
request. -/
def downloadFile (st : ConnState) (now : Int) (auth : String × Int)
    (documentNumber fileType : String) : ConnState × Nat × JVal :=
  ((ensureToken st now auth).1, (ensureToken st now auth).2,
   .obj [("ruc",
          match (ensureToken st now auth).1.ruc with
          | some r => .str r
          | none => .null),
         ("token",
          match (ensureToken st now auth).1.token with
          | some t => .str t
          | none => .null),
         ("documento",
          .str ((match (ensureToken st now auth).1.ruc with
                 | some r => r
                 | none => "None") ++ "-" ++ documentNumber)),
         ("tipoArchivo", .str fileType)])

/-! ## Spec-side definitions

These two definitions transcribe the wording of the specification (not the
source) and are compared with the source embeddings in the refinement
claims. -/

/-- Spec wording of the installment amounts: for each due line in order,
`balance` resolves to the net amount minus the sum already allocated to
prior dues, `percent` to the net amount times the percentage divided by 100
rounded to 2 decimals, `fixed` to the configured amount rounded to 2
decimals, and any other policy to zero. -/
def specDueAmounts (net : ℚ) : List PaymentTermLine → ℚ → List ℚ
  | [], _ => []
  | l :: rest, allocated =>
    (if l.value == "balance" then net - allocated
     else if l.value == "percent" then round2 (net * l.value_amount / 100)
     else if l.value == "fixed" then round2 l.value_amount
     else 0) ::
      specDueAmounts net rest
        (allocated +
          (if l.value == "balance" then net - allocated
           else if l.value == "percent" then round2 (net * l.value_amount / 100)
           else if l.value == "fixed" then round2 l.value_amount
           else 0))

/-- Spec wording of the additional-information parsing of one paragraph
block: normalise the block, split it on the first colon into a title/value
pair tagged with the fixed section identifier; a block without a colon
produces no entry. -/
def specInfoEntry (p : String) : Option JVal :=
  match splitFirst ':' (cleanLine p) with
  | some kv =>
    some (.obj [("seccion", .str "1"),
                ("titulo", .str (stripStr kv.1)),
                ("valor", .str (stripStr kv.2))])
  | none => none

/-! ## Claim C1: retry policy of the submission state machine -/

/-- A rejection response drives one cron iteration to the rejected state
with the message stored and the count incremented, requeued to to_send only
while the incremented count stays below 3. -/
lemma cronProcessOne_reject (st : MoveState) (now : Int) (resp : SendResp)
    (a : Except String Unit) (h : resp.estatus = false) :
    cronProcessOne st now (SendOutcome.response resp a) =
    if st.hka_retry_count + 1 ≥ 3 then
      { st with hka_status := some HkaStatus.rejected,
                hka_error_msg := resp.mensaje,
                hka_retry_count := st.hka_retry_count + 1 }
    else
      { st with hka_status := some HkaStatus.to_send,
                hka_error_msg := resp.mensaje,
                hka_retry_count := st.hka_retry_count + 1 } := by
  simp only [cronProcessOne, sendToHka, handleRetry, h, Bool.not_false,
    Bool.false_eq_true, if_false, if_true]

/-- C1: for an invoice processed from status to_send, a response with falsy
`estatus` sets the status to rejected and stores the remote message, then
the retry handler increments the retry count; when the incremented count
reaches 3 the status stays rejected, otherwise it is reset to to_send.
Three consecutive rejections from a fresh pending invoice leave the retry
count at exactly 3 and the status terminally rejected, with the invoice no
longer selected by the pending-send domain (while it is selected again
after the first and second rejections); an accepted send resets the retry
count to 0. -/
theorem c1_retry_policy :
    (∀ (st : MoveState) (now : Int) (resp : SendResp)
       (a : Except String Unit),
      resp.estatus = false →
      (sendToHka st now resp a).1.hka_status = some HkaStatus.rejected ∧
      (sendToHka st now resp a).1.hka_error_msg = resp.mensaje ∧
      (cronProcessOne st now (SendOutcome.response resp a)).hka_error_msg =
        resp.mensaje ∧
      (cronProcessOne st now (SendOutcome.response resp a)).hka_retry_count =
        st.hka_retry_count + 1 ∧
      (st.hka_retry_count + 1 ≥ 3 →
        (cronProcessOne st now (SendOutcome.response resp a)).hka_status =
          some HkaStatus.rejected) ∧
      (st.hka_retry_count + 1 < 3 →
        (cronProcessOne st now (SendOutcome.response resp a)).hka_status =
          some HkaStatus.to_send)) ∧
    (∀ (st : MoveState) (n1 n2 n3 : Int) (r1 r2 r3 : SendResp)
       (a1 a2 a3 : Except String Unit),
      pendingSend st = true → st.hka_retry_count = 0 →
      r1.estatus = false → r2.estatus = false → r3.estatus = false →
      pendingSend (cronProcessOne st n1 (SendOutcome.response r1 a1)) =
        true ∧
      pendingSend (cronProcessOne (cronProcessOne st n1
        (SendOutcome.response r1 a1)) n2 (SendOutcome.response r2 a2)) =
        true ∧
      (cronProcessOne (cronProcessOne (cronProcessOne st n1
        (SendOutcome.response r1 a1)) n2 (SendOutcome.response r2 a2)) n3
        (SendOutcome.response r3 a3)).hka_retry_count = 3 ∧
      (cronProcessOne (cronProcessOne (cronProcessOne st n1
        (SendOutcome.response r1 a1)) n2 (SendOutcome.response r2 a2)) n3
        (SendOutcome.response r3 a3)).hka_status =
        some HkaStatus.rejected ∧
      pendingSend (cronProcessOne (cronProcessOne (cronProcessOne st n1
        (SendOutcome.response r1 a1)) n2 (SendOutcome.response r2 a2)) n3
        (SendOutcome.response r3 a3)) = false) ∧
    (∀ (st : MoveState) (now : Int) (resp : SendResp),
      resp.estatus = true →
      (cronProcessOne st now (SendOutcome.response resp
        (Except.ok ()))).hka_retry_count = 0) := by
  refine ⟨?_, ?_, ?_⟩
  · intro st now resp a h
    refine ⟨by simp [sendToHka, h], by simp [sendToHka, h], ?_, ?_, ?_, ?_⟩
    · rw [cronProcessOne_reject st now resp a h]
      split <;> rfl
    · rw [cronProcessOne_reject st now resp a h]
      split <;> rfl
    · intro hge
      rw [cronProcessOne_reject st now resp a h, if_pos hge]
    · intro hlt
      rw [cronProcessOne_reject st now resp a h, if_neg (by omega)]
  · intro st n1 n2 n3 r1 r2 r3 a1 a2 a3 hp h0 h1 h2 h3
    simp only [pendingSend, Bool.and_eq_true, decide_eq_true_eq,
      beq_iff_eq] at hp
    obtain ⟨⟨⟨hst, hmv⟩, hjr⟩, hpo⟩ := hp
    have e1 : cronProcessOne st n1 (SendOutcome.response r1 a1) =
        { st with hka_status := some HkaStatus.to_send,
                  hka_error_msg := r1.mensaje,
                  hka_retry_count := st.hka_retry_count + 1 } := by
      rw [cronProcessOne_reject st n1 r1 a1 h1, if_neg (by omega)]
    have e2 : cronProcessOne (cronProcessOne st n1
        (SendOutcome.response r1 a1)) n2 (SendOutcome.response r2 a2) =
        { st with hka_status := some HkaStatus.to_send,
                  hka_error_msg := r2.mensaje,
                  hka_retry_count := st.hka_retry_count + 2 } := by
      rw [e1, cronProcessOne_reject _ n2 r2 a2 h2]
      rw [if_neg (by simp; omega)]
      simp only []
      congr 1
      omega
    have e3 : cronProcessOne (cronProcessOne (cronProcessOne st n1
        (SendOutcome.response r1 a1)) n2 (SendOutcome.response r2 a2)) n3
        (SendOutcome.response r3 a3) =
        { st with hka_status := some HkaStatus.rejected,
                  hka_error_msg := r3.mensaje,
                  hka_retry_count := st.hka_retry_count + 3 } := by
      rw [e2, cronProcessOne_reject _ n3 r3 a3 h3]
      rw [if_pos (by simp; omega)]
      simp only []
      congr 1
      omega
    rw [e3, e2, e1]
    simp [pendingSend, hmv, hjr, hpo, h0]
  · intro st now resp h
    cases hx : strFalsy resp.xml with
    | true =>
      have hs : sendToHka st now resp (Except.ok ()) =
          ({ st with hka_status := some HkaStatus.sent,
                     hka_cpe_number := resp.numeracion,
                     hka_sent_date := some now,
                     hka_error_msg := none }, Except.ok true) := by
        simp only [sendToHka, h, hx, Bool.not_true, Bool.false_eq_true,
          if_false, if_true]
      simp only [cronProcessOne]
      rw [hs]
      rfl
    | false =>
      have hs : sendToHka st now resp (Except.ok ()) =
          ({ st with hka_status := some HkaStatus.sent,
                     hka_cpe_number := resp.numeracion,
                     hka_sent_date := some now,
                     hka_error_msg := none,
                     hka_xml_file := true }, Except.ok true) := by
        simp only [sendToHka, h, hx, Bool.not_true, Bool.false_eq_true,
          if_false, if_true]
      simp only [cronProcessOne]
      rw [hs]
      rfl

/-- Witness for C1 at a concrete pending invoice and concrete rejection
responses. -/
theorem c1_retry_policy_witness :
    pendingSend (cronProcessOne (cronProcessOne (cronProcessOne
      ⟨some HkaStatus.to_send, none, none, none, 0, false, "out_invoice",
        "sale", "posted"⟩ 0
      (SendOutcome.response ⟨false, some "bad", none, none⟩
        (Except.ok ()))) 0
      (SendOutcome.response ⟨false, some "bad", none, none⟩
        (Except.ok ()))) 0
      (SendOutcome.response ⟨false, some "bad", none, none⟩
        (Except.ok ()))) = false ∧
    (cronProcessOne (cronProcessOne (cronProcessOne
      ⟨some HkaStatus.to_send, none, none, none, 0, false, "out_invoice",
        "sale", "posted"⟩ 0
      (SendOutcome.response ⟨false, some "bad", none, none⟩
        (Except.ok ()))) 0
      (SendOutcome.response ⟨false, some "bad", none, none⟩
        (Except.ok ()))) 0
      (SendOutcome.response ⟨false, some "bad", none, none⟩
        (Except.ok ()))).hka_retry_count = 3 := by
  have h := c1_retry_policy.2.1
    ⟨some HkaStatus.to_send, none, none, none, 0, false, "out_invoice",
      "sale", "posted"⟩ 0 0 0
    ⟨false, some "bad", none, none⟩ ⟨false, some "bad", none, none⟩
    ⟨false, some "bad", none, none⟩
    (Except.ok ()) (Except.ok ()) (Except.ok ())
    (by decide) (by decide) (by decide) (by decide) (by decide)
  exact ⟨h.2.2.2.2, h.2.2.1⟩

/-! ## Claim C10: exception path of the send cron -/

/-- Iterated pre-write exception outcomes of the cron loop on the same
invoice. -/
def iterErr (st : MoveState) (now : Int) (e : String) : Nat → MoveState
  | 0 => st
  | n + 1 =>
    cronProcessOne (iterErr st now e n) now (SendOutcome.earlyError e)

/-- C10 counterexample: a pending invoice receives an ACCEPTED response
(`estatus` true) carrying a malformed base64 `xml` value: the acceptance
write has already set `hka_status` to sent when `base64.b64decode` raises,
the `except` branch of the cron then records the message and increments the
retry count on that state, and the invoice is no longer selected by the
pending-send domain — refuting the claim that an unexpected exception
always leaves `hka_status` unchanged at to_send with the invoice still
selected by every subsequent pass. -/
theorem c10_counterexample :
    pendingSend ⟨some HkaStatus.to_send, none, none, none, 0, false,
      "out_invoice", "sale", "posted"⟩ = true ∧
    (cronProcessOne ⟨some HkaStatus.to_send, none, none, none, 0, false,
      "out_invoice", "sale", "posted"⟩ 0
      (SendOutcome.response ⟨true, none, some "F001-1", some "A"⟩
        (Except.error "binascii.Error"))).hka_status =
      some HkaStatus.sent ∧
    (cronProcessOne ⟨some HkaStatus.to_send, none, none, none, 0, false,
      "out_invoice", "sale", "posted"⟩ 0
      (SendOutcome.response ⟨true, none, some "F001-1", some "A"⟩
        (Except.error "binascii.Error"))).hka_error_msg =
      some "binascii.Error" ∧
    (cronProcessOne ⟨some HkaStatus.to_send, none, none, none, 0, false,
      "out_invoice", "sale", "posted"⟩ 0
      (SendOutcome.response ⟨true, none, some "F001-1", some "A"⟩
        (Except.error "binascii.Error"))).hka_retry_count = 1 ∧
    pendingSend (cronProcessOne ⟨some HkaStatus.to_send, none, none, none,
      0, false, "out_invoice", "sale", "posted"⟩ 0
      (SendOutcome.response ⟨true, none, some "F001-1", some "A"⟩
        (Except.error "binascii.Error"))) = false := by
  refine ⟨by decide, by decide, by decide, by decide, by decide⟩

/-- C10 amended: when the exception is raised before any record write
(payload construction or the HTTP send — the typical path), the cron's
except branch only stores the message and increments the retry count: the
status and every other field are unchanged, a pending invoice stays at
to_send, remains selected by the pending-send domain, and its retry count
grows without bound over repeated failing passes.  When the exception is
instead raised by the inline-XML decode/attach step of an accepted
response, the acceptance write has already set the status to sent; the
except branch still only adds the message and increments the count on that
state, and the invoice is then no longer selected.  On neither exception
path is the status ever set to rejected, and the batch loop still
processes the remaining invoices after any outcome. -/
theorem c10_exception_frame :
    (∀ (st : MoveState) (now : Int) (e : String),
      (cronProcessOne st now (SendOutcome.earlyError e)).hka_status =
        st.hka_status ∧
      (cronProcessOne st now (SendOutcome.earlyError e)).hka_error_msg =
        some e ∧
      (cronProcessOne st now (SendOutcome.earlyError e)).hka_retry_count =
        st.hka_retry_count + 1 ∧
      (cronProcessOne st now (SendOutcome.earlyError e)).hka_cpe_number =
        st.hka_cpe_number ∧
      (cronProcessOne st now (SendOutcome.earlyError e)).hka_sent_date =
        st.hka_sent_date ∧
      (cronProcessOne st now (SendOutcome.earlyError e)).hka_xml_file =
        st.hka_xml_file ∧
      (cronProcessOne st now (SendOutcome.earlyError e)).move_type =
        st.move_type ∧
      (cronProcessOne st now (SendOutcome.earlyError e)).journal_type =
        st.journal_type ∧
      (cronProcessOne st now (SendOutcome.earlyError e)).state = st.state ∧
      (pendingSend st = true →
        (cronProcessOne st now (SendOutcome.earlyError e)).hka_status =
          some HkaStatus.to_send ∧
        (cronProcessOne st now (SendOutcome.earlyError e)).hka_status ≠
          some HkaStatus.rejected ∧
        pendingSend (cronProcessOne st now (SendOutcome.earlyError e)) =
          true)) ∧
    (∀ (st : MoveState) (now : Int) (e : String) (n : Nat),
      pendingSend st = true →
      pendingSend (iterErr st now e n) = true ∧
      (iterErr st now e n).hka_retry_count = st.hka_retry_count + n) ∧
    (∀ (st : MoveState) (now : Int) (resp : SendResp) (e : String),
      resp.estatus = true → strFalsy resp.xml = false →
      (cronProcessOne st now
        (SendOutcome.response resp (Except.error e))).hka_status =
        some HkaStatus.sent ∧
      (cronProcessOne st now
        (SendOutcome.response resp (Except.error e))).hka_error_msg =
        some e ∧
      (cronProcessOne st now
        (SendOutcome.response resp (Except.error e))).hka_retry_count =
        st.hka_retry_count + 1 ∧
      (cronProcessOne st now
        (SendOutcome.response resp (Except.error e))).hka_cpe_number =
        resp.numeracion ∧
      (cronProcessOne st now
        (SendOutcome.response resp (Except.error e))).hka_xml_file =
        st.hka_xml_file ∧
      (cronProcessOne st now
        (SendOutcome.response resp (Except.error e))).hka_status ≠
        some HkaStatus.rejected ∧
      pendingSend (cronProcessOne st now
        (SendOutcome.response resp (Except.error e))) = false) ∧
    (∀ (now : Int) (st : MoveState) (o : SendOutcome)
       (rest : List (MoveState × SendOutcome)),
      cronSendHka now ((st, o) :: rest) =
        cronProcessOne st now o :: cronSendHka now rest ∧
      (cronSendHka now rest).length = rest.length) := by
  have hbase : ∀ (st : MoveState) (now : Int) (e : String),
      cronProcessOne st now (SendOutcome.earlyError e) =
      { st with hka_error_msg := some e,
                hka_retry_count := st.hka_retry_count + 1 } := by
    intro st now e
    rfl
  refine ⟨?_, ?_, ?_, ?_⟩
  · intro st now e
    rw [hbase]
    refine ⟨rfl, rfl, rfl, rfl, rfl, rfl, rfl, rfl, rfl, ?_⟩
    intro hp
    simp only [pendingSend, Bool.and_eq_true, decide_eq_true_eq,
      beq_iff_eq] at hp
    refine ⟨hp.1.1.1, ?_, ?_⟩
    · rw [hp.1.1.1]
      simp
    · simp [pendingSend, hp.1.1.1, hp.1.1.2, hp.1.2, hp.2]
  · intro st now e n hp
    induction n with
    | zero => exact ⟨by simpa [iterErr] using hp, by simp [iterErr]⟩
    | succ k ih =>
      simp only [iterErr]
      rw [hbase]
      constructor
      · simp only [pendingSend, Bool.and_eq_true, decide_eq_true_eq,
          beq_iff_eq] at ih ⊢
        exact ⟨⟨⟨ih.1.1.1.1, ih.1.1.1.2⟩, ih.1.1.2⟩, ih.1.2⟩
      · have := ih.2
        simp only []
        omega
  · intro st now resp e h hx
    have hs : sendToHka st now resp (Except.error e) =
        ({ st with hka_status := some HkaStatus.sent,
                   hka_cpe_number := resp.numeracion,
                   hka_sent_date := some now,
                   hka_error_msg := none }, Except.error e) := by
      simp only [sendToHka, h, hx, Bool.not_true, Bool.false_eq_true,
        if_false]
    have hc : cronProcessOne st now
        (SendOutcome.response resp (Except.error e)) =
        { st with hka_status := some HkaStatus.sent,
                  hka_cpe_number := resp.numeracion,
                  hka_sent_date := some now,
                  hka_error_msg := some e,
                  hka_retry_count := st.hka_retry_count + 1 } := by
      simp only [cronProcessOne]
      rw [hs]
    rw [hc]
    refine ⟨rfl, rfl, rfl, rfl, rfl, by simp, by simp [pendingSend]⟩
  · intro now st o rest
    exact ⟨rfl, by simp [cronSendHka]⟩

/-- Witness for the amended C10: four consecutive pre-write exception
passes on a concrete pending invoice leave it pending with retry count 4,
beyond the retry budget of 3; and a concrete accepted response whose
attachment step raises leaves the status at sent, excluded from the
domain. -/
theorem c10_exception_frame_witness :
    pendingSend (iterErr ⟨some HkaStatus.to_send, none, none, none, 0,
      false, "out_invoice", "sale", "posted"⟩ 0 "division by zero" 4) =
      true ∧
    MoveState.hka_retry_count (iterErr ⟨some HkaStatus.to_send, none, none,
      none, 0, false, "out_invoice", "sale", "posted"⟩ 0
      "division by zero" 4) = 4 ∧
    (cronProcessOne ⟨some HkaStatus.to_send, none, none, none, 2, false,
      "out_invoice", "sale", "posted"⟩ 7
      (SendOutcome.response ⟨true, none, some "F001-9", some "!!"⟩
        (Except.error "binascii.Error"))).hka_status =
      some HkaStatus.sent := by
  have h := c10_exception_frame.2.1
    ⟨some HkaStatus.to_send, none, none, none, 0, false, "out_invoice",
      "sale", "posted"⟩ 0 "division by zero" 4 (by decide)
  have h2 := c10_exception_frame.2.2.1
    ⟨some HkaStatus.to_send, none, none, none, 2, false, "out_invoice",
      "sale", "posted"⟩ 7 ⟨true, none, some "F001-9", some "!!"⟩
    "binascii.Error" (by decide) (by decide)
  exact ⟨h.1, by simpa using h.2, h2.1⟩

/-! ## Claim C2: scoping of the cached token -/

lemma cachedTokenOf_write (c : Company) (cfg : ConfigStore) (tok : String)
    (exp : Int) : cachedTokenOf c (writeSingleton cfg tok exp) = some tok := by
  obtain ⟨recs⟩ := cfg
  cases recs <;> rfl

lemma cachedExpiryOf_write (c : Company) (cfg : ConfigStore) (tok : String)
    (exp : Int) :
    cachedExpiryOf c (writeSingleton cfg tok exp) = some exp := by
  obtain ⟨recs⟩ := cfg
  cases recs <;> rfl

def companyOne : Company :=
  ⟨1, some "20100000001", "Alpha SAC", none, none, none, none, none, none,
   some "userA", some "pwA", true⟩

def companyTwo : Company :=
  ⟨2, some "20100000002", "Beta SAC", none, none, none, none, none, none,
   some "userB", some "pwB", true⟩

def cfgOld : ConfigStore := ⟨[⟨some "oldtoken", some 1000⟩]⟩

def respNew : AuthResp :=
  .json [("token", "newtoken"), ("fechaExpiracion", "2026-01-01 00:00:00")]

/-- C2 counterexample: two distinct companies; before authentication the
second company's connector reads the cached token `oldtoken`, and after the
FIRST company successfully authenticates, the second company's cached token
has changed (to the first company's fresh token): authenticating for one
company does not leave the other company's cached token unchanged, because
the config model holds one single record with no company key. -/
theorem c2_counterexample :
    companyOne ≠ companyTwo ∧
    cachedTokenOf companyTwo cfgOld = some "oldtoken" ∧
    (authenticateAs companyOne cfgOld respNew).2 = none ∧
    cachedTokenOf companyTwo (authenticateAs companyOne cfgOld respNew).1 ≠
      cachedTokenOf companyTwo cfgOld := by
  refine ⟨by decide, by decide, by decide, by decide⟩

/-- C2 amended: the token cache is one global slot shared by every company
(the `hka.connector.config` search is unfiltered), so all companies always
observe the same cached token and expiry, and after any company successfully
authenticates, every company's connector observes the newly written token
and expiry. -/
theorem c2_global_token_slot :
    (∀ (c c2 : Company) (cfg : ConfigStore),
      cachedTokenOf c cfg = cachedTokenOf c2 cfg ∧
      cachedExpiryOf c cfg = cachedExpiryOf c2 cfg) ∧
    (∀ (c c2 : Company) (cfg : ConfigStore)
       (fields : List (String × String)) (tok fe : String) (exp : Int),
      lookupStr "fechaExpiracion" fields = some fe →
      parseDateTime fe = some exp →
      lookupStr "token" fields = some tok →
      (authenticateAs c cfg (.json fields)).2 = none ∧
      cachedTokenOf c2 (authenticateAs c cfg (.json fields)).1 = some tok ∧
      cachedExpiryOf c2 (authenticateAs c cfg (.json fields)).1 =
        some exp) := by
  constructor
  · intro c c2 cfg
    exact ⟨rfl, rfl⟩
  · intro c c2 cfg fields tok fe exp h1 h2 h3
    have h22 : (authenticate (connectorInit c cfg) cfg
        (.json fields)).2.2 = none := by
      simp only [authenticate, h1, h2, h3]
    have h21 : (authenticate (connectorInit c cfg) cfg
        (.json fields)).2.1 = writeSingleton cfg tok exp := by
      simp only [authenticate, h1, h2, h3]
    unfold authenticateAs
    refine ⟨h22, ?_, ?_⟩
    · rw [h21]
      exact cachedTokenOf_write c2 cfg tok exp
    · rw [h21]
      exact cachedExpiryOf_write c2 cfg tok exp

/-- Witness for the amended C2 at a concrete store and response. -/
theorem c2_global_token_slot_witness :
    (authenticateAs companyOne cfgOld respNew).2 = none ∧
    cachedTokenOf companyTwo (authenticateAs companyOne cfgOld respNew).1 =
      some "newtoken" := by
  have h := c2_global_token_slot.2 companyOne companyTwo cfgOld
    [("token", "newtoken"), ("fechaExpiracion", "2026-01-01 00:00:00")]
    "newtoken" "2026-01-01 00:00:00" 1767225600
    (by decide) (by decide) (by decide)
  exact ⟨h.1, h.2.1⟩

/-! ## Claim C8: atomicity of authentication -/

/-- C8: a transport error propagates as-is; whenever `authenticate`
propagates any error, the in-memory token state and the persisted config
store both come back unchanged; and when it succeeds, the response body had
a token field and a parsable expiry field, and both the in-memory copy and
the singleton record now hold exactly that parsed token and expiry. -/
theorem c8_auth_atomicity :
    (∀ (st : ConnState) (cfg : ConfigStore) (m : String),
      authenticate st cfg (.transportError m) = (st, cfg, some m)) ∧
    (∀ (st : ConnState) (cfg : ConfigStore) (resp : AuthResp) (e : String),
      (authenticate st cfg resp).2.2 = some e →
      (authenticate st cfg resp).1 = st ∧
      (authenticate st cfg resp).2.1 = cfg) ∧
    (∀ (st : ConnState) (cfg : ConfigStore) (resp : AuthResp),
      (authenticate st cfg resp).2.2 = none →
      ∃ fields tok fe exp,
        resp = .json fields ∧
        lookupStr "fechaExpiracion" fields = some fe ∧
        parseDateTime fe = some exp ∧
        lookupStr "token" fields = some tok ∧
        (authenticate st cfg resp).1.token = some tok ∧
        (authenticate st cfg resp).1.token_expiry = some exp ∧
        (authenticate st cfg resp).2.1 = writeSingleton cfg tok exp) := by
  refine ⟨?_, ?_, ?_⟩
  · intro st cfg m
    rfl
  · intro st cfg resp e h
    cases resp with
    | transportError m => exact ⟨rfl, rfl⟩
    | httpError code => exact ⟨rfl, rfl⟩
    | badJson => exact ⟨rfl, rfl⟩
    | json fields =>
      cases hfe : lookupStr "fechaExpiracion" fields with
      | none =>
        have he : authenticate st cfg (.json fields) =
            (st, cfg, some "KeyError fechaExpiracion") := by
          simp only [authenticate, hfe]
        rw [he]
        exact ⟨rfl, rfl⟩
      | some fe =>
        cases hpd : parseDateTime fe with
        | none =>
          have he : authenticate st cfg (.json fields) =
              (st, cfg, some "ValueError strptime") := by
            simp only [authenticate, hfe, hpd]
          rw [he]
          exact ⟨rfl, rfl⟩
        | some exp =>
          cases htk : lookupStr "token" fields with
          | none =>
            have he : authenticate st cfg (.json fields) =
                (st, cfg, some "KeyError token") := by
              simp only [authenticate, hfe, hpd, htk]
            rw [he]
            exact ⟨rfl, rfl⟩
          | some tok =>
            have he : (authenticate st cfg (.json fields)).2.2 = none := by
              simp only [authenticate, hfe, hpd, htk]
            rw [he] at h
            exact absurd h (by simp)
  · intro st cfg resp h
    cases resp with
    | transportError m => exact absurd h (by simp [authenticate])
    | httpError code => exact absurd h (by simp [authenticate])
    | badJson => exact absurd h (by simp [authenticate])
    | json fields =>
      cases hfe : lookupStr "fechaExpiracion" fields with
      | none =>
        have he : (authenticate st cfg (.json fields)).2.2 =
            some "KeyError fechaExpiracion" := by
          simp only [authenticate, hfe]
        rw [he] at h
        exact absurd h (by simp)
      | some fe =>
        cases hpd : parseDateTime fe with
        | none =>
          have he : (authenticate st cfg (.json fields)).2.2 =
              some "ValueError strptime" := by
            simp only [authenticate, hfe, hpd]
          rw [he] at h
          exact absurd h (by simp)
        | some exp =>
          cases htk : lookupStr "token" fields with
          | none =>
            have he : (authenticate st cfg (.json fields)).2.2 =
                some "KeyError token" := by
              simp only [authenticate, hfe, hpd, htk]
            rw [he] at h
            exact absurd h (by simp)
          | some tok =>
            refine ⟨fields, tok, fe, exp, rfl, hfe, hpd, htk, ?_, ?_, ?_⟩
            · show (authenticate st cfg (.json fields)).1.token = some tok
              simp only [authenticate, hfe, hpd, htk]
            · show (authenticate st cfg
                (.json fields)).1.token_expiry = some exp
              simp only [authenticate, hfe, hpd, htk]
            · show (authenticate st cfg (.json fields)).2.1 =
                writeSingleton cfg tok exp
              simp only [authenticate, hfe, hpd, htk]

/-- Witness for C8: a parsed body missing the expiry field propagates a
KeyError and leaves the concrete connector state and store untouched. -/
theorem c8_auth_atomicity_witness :
    (authenticate ⟨none, none, none, false, some "old", some 5⟩
      ⟨[⟨some "old", some 5⟩]⟩ (.json [("token", "fresh")])).2.2 =
      some "KeyError fechaExpiracion" ∧
    (authenticate ⟨none, none, none, false, some "old", some 5⟩
      ⟨[⟨some "old", some 5⟩]⟩ (.json [("token", "fresh")])).1 =
      ⟨none, none, none, false, some "old", some 5⟩ ∧
    (authenticate ⟨none, none, none, false, some "old", some 5⟩
      ⟨[⟨some "old", some 5⟩]⟩ (.json [("token", "fresh")])).2.1 =
      ⟨[⟨some "old", some 5⟩]⟩ := by
  have h := c8_auth_atomicity.2.1 ⟨none, none, none, false, some "old",
    some 5⟩ ⟨[⟨some "old", some 5⟩]⟩ (.json [("token", "fresh")])
    "KeyError fechaExpiracion" (by decide)
  exact ⟨by decide, h.1, h.2⟩

/-! ## Claim C7: token validity check and reuse -/

/-- C7: both client operations run the token check first, and an
authentication happens exactly when the cached token is absent (falsy value
or no expiry) or the current time is at or past the expiry; in a two-send
scenario starting without a valid token, where the fetched token is
nonempty and still valid at the second send, exactly one authenticate call
happens in total; and a send at or past the cached expiry makes exactly one
re-authenticate call and then posts the body carrying the fresh token. -/
theorem c7_token_check :
    (∀ (st : ConnState) (now : Int) (auth : String × Int) (p : JVal),
      (sendDocument st now auth p).2.1 =
        (if needsAuth st now then 1 else 0)) ∧
    (∀ (st : ConnState) (now : Int) (auth : String × Int) (dn ft : String),
      (downloadFile st now auth dn ft).2.1 =
        (if needsAuth st now then 1 else 0)) ∧
    (∀ (st : ConnState) (now : Int),
      needsAuth st now = true ↔
        (strFalsy st.token = true ∨ st.token_expiry = none ∨
          ∃ e, st.token_expiry = some e ∧ e ≤ now)) ∧
    (∀ (st : ConnState) (now1 now2 : Int) (tok : String) (exp : Int)
       (p1 p2 : JVal),
      needsAuth st now1 = true → tok ≠ "" → now2 < exp →
      (sendDocument st now1 (tok, exp) p1).2.1 +
        (sendDocument (sendDocument st now1 (tok, exp) p1).1 now2
          (tok, exp) p2).2.1 = 1) ∧
    (∀ (st : ConnState) (now : Int) (tok : String) (exp : Int) (p : JVal)
       (e : Int),
      st.token_expiry = some e → e ≤ now →
      (sendDocument st now (tok, exp) p).2.1 = 1 ∧
      jGet "token" (sendDocument st now (tok, exp) p).2.2 =
        some (.str tok)) := by
  have hcalls : ∀ (st : ConnState) (now : Int) (auth : String × Int),
      (ensureToken st now auth).2 = (if needsAuth st now then 1 else 0) := by
    intro st now auth
    unfold ensureToken
    split <;> simp_all
  refine ⟨?_, ?_, ?_, ?_, ?_⟩
  · intro st now auth p
    exact hcalls st now auth
  · intro st now auth dn ft
    exact hcalls st now auth
  · intro st now
    unfold needsAuth
    cases hte : st.token_expiry with
    | none => simp
    | some e =>
      simp only [Bool.or_eq_true, decide_eq_true_eq]
      constructor
      · rintro (h | h)
        · exact Or.inl h
        · exact Or.inr (Or.inr ⟨e, rfl, h⟩)
      · rintro (h | h | ⟨e2, he2, hle⟩)
        · exact Or.inl h
        · exact absurd h (by simp)
        · injection he2 with he3
          exact Or.inr (he3 ▸ hle)
  · intro st now1 now2 tok exp p1 p2 h1 h2 h3
    have e1 : (sendDocument st now1 (tok, exp) p1).2.1 = 1 := by
      show (ensureToken st now1 (tok, exp)).2 = 1
      unfold ensureToken
      rw [if_pos h1]
    have est : (sendDocument st now1 (tok, exp) p1).1 =
        { st with token := some tok, token_expiry := some exp } := by
      show (ensureToken st now1 (tok, exp)).1 = _
      unfold ensureToken
      rw [if_pos h1]
    have hna : needsAuth { st with
        token := some tok,
        token_expiry := some exp } now2 = false := by
      unfold needsAuth strFalsy
      simp only []
      have hie : tok.isEmpty = false := by
        cases hb : tok.isEmpty with
        | false => rfl
        | true => exact absurd ((String.isEmpty_iff tok).mp hb) h2
      rw [hie]
      simp only [Bool.false_or, decide_eq_false_iff_not]
      omega
    have e2 : (sendDocument (sendDocument st now1 (tok, exp) p1).1 now2
        (tok, exp) p2).2.1 = 0 := by
      rw [est]
      show (ensureToken _ now2 (tok, exp)).2 = 0
      unfold ensureToken
      rw [if_neg (by simp [hna])]
    rw [e1, e2]
  · intro st now tok exp p e he hle
    have hna : needsAuth st now = true := by
      unfold needsAuth
      rw [he]
      simp [hle]
    have est : (ensureToken st now (tok, exp)).1 =
        { st with token := some tok, token_expiry := some exp } := by
      unfold ensureToken
      rw [if_pos hna]
    constructor
    · show (ensureToken st now (tok, exp)).2 = 1
      unfold ensureToken
      rw [if_pos hna]
    · show jGet "token" (.obj [("documentoElectronico", p),
        ("ruc", match (ensureToken st now (tok, exp)).1.ruc with
                | some r => .str r
                | none => .null),
        ("token", match (ensureToken st now (tok, exp)).1.token with
                  | some t => .str t
                  | none => .null)]) = some (.str tok)
      rw [est]
      rfl

/-- Witness for C7: a fresh connector, a send at time 5 fetching a token
valid until 100, then a second send at time 6: one authenticate in total;
and a connector expired at time 50 re-authenticates once at time 60 and
posts the fresh token. -/
theorem c7_token_check_witness :
    (sendDocument ⟨none, none, none, false, none, none⟩ 5 ("t1", 100)
      JVal.null).2.1 +
      (sendDocument (sendDocument ⟨none, none, none, false, none, none⟩ 5
        ("t1", 100) JVal.null).1 6 ("t1", 100) JVal.null).2.1 = 1 ∧
    (sendDocument ⟨none, none, none, false, some "t0", some 50⟩ 60
      ("t2", 200) JVal.null).2.1 = 1 ∧
    jGet "token" (sendDocument ⟨none, none, none, false, some "t0",
      some 50⟩ 60 ("t2", 200) JVal.null).2.2 = some (.str "t2") := by
  have h1 := c7_token_check.2.2.2.1 ⟨none, none, none, false, none, none⟩
    5 6 "t1" 100 JVal.null JVal.null (by decide) (by decide) (by decide)
  have h2 := c7_token_check.2.2.2.2 ⟨none, none, none, false, some "t0",
    some 50⟩ 60 "t2" 200 JVal.null 50 rfl (by decide)
  exact ⟨h1, h2.1, h2.2⟩

/-! ## Claim C3: determinism of payload construction -/

def invoiceClock : Invoice :=
  { name := "F001-1",
    invoice_date := ⟨2025, 3, 10⟩,
    invoice_date_due := ⟨2025, 3, 10⟩,
    l10n_latam_document_type_code := "01",
    l10n_pe_edi_operation_type_code := some "0101",
    company_id := ⟨1, some "20100000001", "Emisor SAC", some "Calle 1",
      none, some "Lima", some "Lima", some "PE", some "15001", some "user",
      some "pass", true⟩,
    partner_id := ⟨some "6", some "20600000001", "Cliente SAC", some "PE",
      some "Lima", some "Lima", some "Av 2"⟩,
    invoice_line_ids := [],
    amount_total := 118,
    amount_tax := 18,
    amount_untaxed := 100,
    currency_name := "PEN",
    invoice_payment_term_id := none,
    narration := none,
    l10n_pe_edi_detraction_type_id := none,
    l10n_pe_edi_detraction_payment_code := none,
    l10n_pe_edi_detraction_bank_acc := none,
    l10n_pe_edi_total_detraction := 0 }

/-- C3 counterexample: the very same invoice, built at clock reading
10:00:00 and at clock reading 11:00:00, yields different payloads (the
`horaEmision` header field embeds the emission wall clock), so repeated
calls of the builder on unchanged invoice data are not byte-identical. -/
theorem c3_counterexample :
    prepareHkaPayload none invoiceClock ⟨10, 0, 0⟩ ≠
      prepareHkaPayload none invoiceClock ⟨11, 0, 0⟩ := by
  intro h
  have h2 := congrArg (Option.map (jGet "horaEmision")) h
  have e1 : Option.map (jGet "horaEmision")
      (prepareHkaPayload none invoiceClock ⟨10, 0, 0⟩) =
      some (some (JVal.str "10:00:00")) := rfl
  have e2 : Option.map (jGet "horaEmision")
      (prepareHkaPayload none invoiceClock ⟨11, 0, 0⟩) =
      some (some (JVal.str "11:00:00")) := rfl
  rw [e1, e2] at h2
  injection h2 with h3
  injection h3 with h4
  injection h4 with h5
  exact absurd h5 (by decide)

/-- C3 amended: the payload builder is a pure function of the invoice data
and of the emission clock reading: two builds with unchanged invoice data
whose clock readings render identically produce identical payloads; only
the `horaEmision` field depends on the clock. -/
theorem c3_payload_clock (immediateId : Option Nat) (inv : Invoice)
    (t1 t2 : Time) (h : fmtTime t1 = fmtTime t2) :
    prepareHkaPayload immediateId inv t1 =
      prepareHkaPayload immediateId inv t2 := by
  unfold prepareHkaPayload headerFields
  rw [h]

/-- Witness for the amended C3 at a concrete invoice and clock reading. -/
theorem c3_payload_clock_witness :
    prepareHkaPayload none invoiceClock ⟨10, 0, 0⟩ =
      prepareHkaPayload none invoiceClock ⟨10, 0, 0⟩ :=
  c3_payload_clock none invoiceClock ⟨10, 0, 0⟩ ⟨10, 0, 0⟩ rfl

/-! ## Claim C9: additional-information parsing -/

/-- C9: the information section is exactly the ordered filter-map of the
spec-side per-block parser over the paragraph blocks (order preserved, fixed
section identifier, first-colon split on the normalised block); a block
whose normalised text has no colon yields no entry; and the two-block
example produces exactly one entry with title Ref and value ABC123. -/
theorem c9_information_parsing :
    (∀ blocks : List String,
      prepareHkaInformation (some blocks) = blocks.filterMap specInfoEntry) ∧
    (∀ p : String, splitFirst ':' (cleanLine p) = none →
      specInfoEntry p = none) ∧
    prepareHkaInformation (some ["Ref: ABC123", "No colon here"]) =
      [.obj [("seccion", .str "1"), ("titulo", .str "Ref"),
             ("valor", .str "ABC123")]] := by
  refine ⟨?_, ?_, ?_⟩
  · intro blocks
    show infoLoop blocks = blocks.filterMap specInfoEntry
    induction blocks with
    | nil => rfl
    | cons p ps ih =>
      cases h : splitFirst ':' (cleanLine p) with
      | none =>
        simp only [infoLoop, specInfoEntry, h, List.filterMap_cons, ih]
      | some kv =>
        simp only [infoLoop, specInfoEntry, h, List.filterMap_cons, ih]
  · intro p h
    unfold specInfoEntry
    rw [h]
  · rfl

/-- Witness for C9: a normalised block with no colon contributes no
entry. -/
theorem c9_information_parsing_witness :
    specInfoEntry "No colon here" = none :=
  c9_information_parsing.2.1 "No colon here" rfl

/-! ## Claim C6: detraction amount and net amount -/

/-- C6: with a detraction type set, the stored detraction amount is the
invoice total times the rate over 100 rounded to two decimals, and it is 0
with no detraction type; the net amount the installment computation uses is
the grand total minus the stored detraction amount; and at rate 4 on total
1000.00 the detraction is exactly 40.00 with net amount 960.00. -/
theorem c6_detraction_amount :
    (∀ (inv : Invoice) (dt : DetractionType),
      inv.l10n_pe_edi_detraction_type_id = some dt →
      computeTotalDetraction inv =
        round2 (inv.amount_total * dt.rate / 100)) ∧
    (∀ inv : Invoice, inv.l10n_pe_edi_detraction_type_id = none →
      computeTotalDetraction inv = 0) ∧
    (∀ inv : Invoice,
      netAmount inv = inv.amount_total - inv.l10n_pe_edi_total_detraction) ∧
    (∀ inv : Invoice,
      inv.l10n_pe_edi_total_detraction = computeTotalDetraction inv →
      netAmount inv = inv.amount_total - computeTotalDetraction inv) ∧
    (∀ (inv : Invoice) (dt : DetractionType),
      inv.l10n_pe_edi_detraction_type_id = some dt →
      inv.amount_total = 1000 → dt.rate = 4 →
      computeTotalDetraction inv = 40 ∧
      (inv.l10n_pe_edi_total_detraction = computeTotalDetraction inv →
        netAmount inv = 960)) := by
  have hcomp : ∀ (inv : Invoice) (dt : DetractionType),
      inv.l10n_pe_edi_detraction_type_id = some dt →
      computeTotalDetraction inv =
        round2 (inv.amount_total * dt.rate / 100) := by
    intro inv dt h
    unfold computeTotalDetraction
    rw [h]
  refine ⟨hcomp, ?_, ?_, ?_, ?_⟩
  · intro inv h
    unfold computeTotalDetraction
    rw [h]
  · intro inv
    rfl
  · intro inv h
    unfold netAmount
    rw [h]
  · intro inv dt h ht hr
    have h40 : computeTotalDetraction inv = 40 := by
      rw [hcomp inv dt h, ht, hr]
      have hq : (1000 : ℚ) * 4 / 100 = ((40 : Int) : ℚ) := by
        push_cast
        norm_num
      rw [hq, round2_intCast]
      push_cast
      norm_num
    refine ⟨h40, ?_⟩
    intro hs
    unfold netAmount
    rw [hs, h40, ht]
    norm_num

def invoiceDetr : Invoice :=
  { name := "F001-2",
    invoice_date := ⟨2025, 3, 10⟩,
    invoice_date_due := ⟨2025, 3, 10⟩,
    l10n_latam_document_type_code := "01",
    l10n_pe_edi_operation_type_code := some "1001",
    company_id := ⟨1, some "20100000001", "Emisor SAC", none, none, none,
      none, none, none, some "user", some "pass", true⟩,
    partner_id := ⟨some "6", some "20600000001", "Cliente SAC", none, none,
      none, none⟩,
    invoice_line_ids := [⟨"Servicio gravado", 1, 1000, 1000, 1180, [18],
      "ZZ"⟩],
    amount_total := 1000,
    amount_tax := 0,
    amount_untaxed := 1000,
    currency_name := "PEN",
    invoice_payment_term_id := none,
    narration := none,
    l10n_pe_edi_detraction_type_id := some ⟨"037", 4⟩,
    l10n_pe_edi_detraction_payment_code := some "001",
    l10n_pe_edi_detraction_bank_acc := some "00-000-123456",
    l10n_pe_edi_total_detraction := 40 }

/-- Witness for C6 at the concrete detraction invoice of the spec example:
total 1000.00 at rate 4 gives detraction 40.00 and net 960.00. -/
theorem c6_detraction_amount_witness :
    computeTotalDetraction invoiceDetr = 40 ∧ netAmount invoiceDetr = 960 := by
  have h := c6_detraction_amount.2.2.2.2 invoiceDetr ⟨"037", 4⟩ rfl rfl rfl
  refine ⟨h.1, h.2 ?_⟩
  rw [h.1]
  rfl

/-! ## Claim C5: two-decimal rendering of monetary fields -/

/-- A value of an object rendered as a string with exactly two digits after
the decimal point. -/
def isTwoDecField (key : String) (v : JVal) : Prop :=
  ∃ s, jGet key v = some (.str s) ∧ twoDecStr s

lemma itemsLoop_mem {v : JVal} :
    ∀ (idx : Nat) (ls : List InvoiceLine), v ∈ itemsLoop idx ls →
    ∃ i l, l ∈ ls ∧ v = itemObj i l := by
  intro idx ls
  induction ls generalizing idx with
  | nil => intro h; simp [itemsLoop] at h
  | cons a as ih =>
    intro h
    simp only [itemsLoop, List.mem_cons] at h
    rcases h with h | h
    · exact ⟨idx, a, List.mem_cons_self a as, h⟩
    · obtain ⟨i, l, hl, hv⟩ := ih (idx + 1) h
      exact ⟨i, l, List.mem_cons_of_mem a hl, hv⟩

/-- C5 counterexample: on a concrete invoice with detraction rate 4, the
`porcentaje` field of the built detraction block is the raw number 4, not a
string rendered with two digits after the decimal point — refuting the
claim that every monetary and percentage field, including the detraction
block's percentage, is rendered with exactly two decimals. -/
theorem c5_counterexample :
    jGet "porcentaje" ((prepareHkaDetraction invoiceDetr).headD .null) =
      some (.num 4) ∧
    ¬ isTwoDecField "porcentaje"
      ((prepareHkaDetraction invoiceDetr).headD .null) := by
  constructor
  · rfl
  · rintro ⟨s, hs, _⟩
    rw [show jGet "porcentaje"
      ((prepareHkaDetraction invoiceDetr).headD .null) =
      some (.num 4) from rfl] at hs
    injection hs with hs2
    cases hs2

/-- C5 amended: every monetary and percentage field among the item amounts
(unit value, line value, unit sale price, item tax amount, and the IGV
base, percentage and amount), the totals fields, and the detraction
block's amount is rendered with exactly two digits after the decimal point,
for every invoice (hence for zero, negative and arbitrarily large amounts);
the detraction block's `porcentaje` field, however, is emitted as the raw
numeric rate, unformatted. -/
theorem c5_two_decimal_rendering :
    (∀ (inv : Invoice) (v : JVal), v ∈ prepareHkaItems inv →
      isTwoDecField "valorUnitarioBI" v ∧
      isTwoDecField "valorVentaItemQxBI" v ∧
      isTwoDecField "precioVentaUnitarioItem" v ∧
      isTwoDecField "montoTotalImpuestoItem" v ∧
      (∃ w, jGet "IGV" v = some w ∧
        isTwoDecField "baseImponible" w ∧
        isTwoDecField "porcentaje" w ∧
        isTwoDecField "monto" w)) ∧
    (∀ inv : Invoice,
      isTwoDecField "importeTotalPagar" (prepareHkaTotals inv) ∧
      isTwoDecField "importeTotalVenta" (prepareHkaTotals inv) ∧
      isTwoDecField "montoTotalImpuestos" (prepareHkaTotals inv) ∧
      isTwoDecField "subtotalValorVenta" (prepareHkaTotals inv) ∧
      isTwoDecField "totalIGV" (prepareHkaTotals inv) ∧
      (∃ w, jGet "subtotal" (prepareHkaTotals inv) = some w ∧
        isTwoDecField "IGV" w)) ∧
    (∀ (inv : Invoice) (d : JVal), d ∈ prepareHkaDetraction inv →
      isTwoDecField "monto" d) ∧
    (∀ (inv : Invoice) (dt : DetractionType),
      inv.l10n_pe_edi_detraction_type_id = some dt →
      ∀ (d : JVal), d ∈ prepareHkaDetraction inv →
      jGet "porcentaje" d = some (.num dt.rate)) := by
  refine ⟨?_, ?_, ?_, ?_⟩
  · intro inv v hv
    obtain ⟨i, l, _, hv⟩ := itemsLoop_mem 1 inv.invoice_line_ids hv
    subst hv
    refine ⟨⟨_, rfl, fmt2_twoDec _⟩, ⟨_, rfl, fmt2_twoDec _⟩,
      ⟨_, rfl, fmt2_twoDec _⟩, ⟨_, rfl, fmt2_twoDec _⟩,
      ⟨_, rfl, ⟨_, rfl, fmt2_twoDec _⟩, ⟨_, rfl, fmt2_twoDec _⟩,
        ⟨_, rfl, fmt2_twoDec _⟩⟩⟩
  · intro inv
    exact ⟨⟨_, rfl, fmt2_twoDec _⟩, ⟨_, rfl, fmt2_twoDec _⟩,
      ⟨_, rfl, fmt2_twoDec _⟩, ⟨_, rfl, fmt2_twoDec _⟩,
      ⟨_, rfl, fmt2_twoDec _⟩, ⟨_, rfl, ⟨_, rfl, fmt2_twoDec _⟩⟩⟩
  · intro inv d hd
    rw [show prepareHkaDetraction inv = [(prepareHkaDetraction inv).headD
      .null] from rfl] at hd
    rw [List.mem_singleton] at hd
    subst hd
    exact ⟨_, rfl, fmt2_twoDec _⟩
  · intro inv dt hdt d hd
    rw [show prepareHkaDetraction inv = [(prepareHkaDetraction inv).headD
      .null] from rfl] at hd
    rw [List.mem_singleton] at hd
    subst hd
    show jGetFields "porcentaje" _ = some (.num dt.rate)
    rw [hdt]
    rfl

/-- Witness for the amended C5 at the concrete detraction invoice: the item
unit value, the totals field, the detraction amount are all two-decimal
strings, and the raw percentage field equals the numeric rate 4. -/
theorem c5_two_decimal_rendering_witness :
    isTwoDecField "valorUnitarioBI"
      ((prepareHkaItems invoiceDetr).headD .null) ∧
    isTwoDecField "importeTotalPagar" (prepareHkaTotals invoiceDetr) ∧
    isTwoDecField "monto" ((prepareHkaDetraction invoiceDetr).headD .null) ∧
    jGet "porcentaje" ((prepareHkaDetraction invoiceDetr).headD .null) =
      some (.num 4) := by
  have h1 := (c5_two_decimal_rendering.1 invoiceDetr
    ((prepareHkaItems invoiceDetr).headD .null) (List.Mem.head _)).1
  have h2 := (c5_two_decimal_rendering.2.1 invoiceDetr).1
  have h3 := c5_two_decimal_rendering.2.2.1 invoiceDetr
    ((prepareHkaDetraction invoiceDetr).headD .null) (List.Mem.head _)
  have h4 := c5_two_decimal_rendering.2.2.2 invoiceDetr ⟨"037", 4⟩ rfl
    ((prepareHkaDetraction invoiceDetr).headD .null) (List.Mem.head _)
  exact ⟨h1, h2, h3, h4⟩

/-! ## Claim C4: installment allocation -/

lemma buildDues_amounts (d : Date) (net : ℚ) :
    ∀ (ls : List PaymentTermLine) (idx : Nat) (alloc : ℚ),
    (buildDues d net ls idx alloc).map (jGet "montoPagoCuota") =
      (specDueAmounts net ls alloc).map
        (fun a => some (JVal.str (fmt2 a))) := by
  intro ls
  induction ls with
  | nil => intro idx alloc; rfl
  | cons l rest ih =>
    intro idx alloc
    simp only [buildDues, specDueAmounts, List.map_cons]
    congr 1
    exact ih (idx + 1) _

lemma buildDues_ids (d : Date) (net : ℚ) :
    ∀ (ls : List PaymentTermLine) (idx : Nat) (alloc : ℚ),
    (buildDues d net ls idx alloc).map (jGet "identificadorCuota") =
      (List.range ls.length).map
        (fun k => some (JVal.str (cuotaId (idx + k)))) := by
  intro ls
  induction ls with
  | nil => intro idx alloc; rfl
  | cons l rest ih =>
    intro idx alloc
    simp only [buildDues, List.map_cons, List.length_cons,
      List.range_succ_eq_map, List.map_map]
    congr 1
    rw [ih (idx + 1) _]
    apply List.map_congr_left
    intro k hk
    simp only [Function.comp_apply]
    have he : idx + 1 + k = idx + (k + 1) := by omega
    rw [he]

lemma buildDues_dates (d : Date) (net : ℚ) :
    ∀ (ls : List PaymentTermLine) (idx : Nat) (alloc : ℚ),
    (buildDues d net ls idx alloc).map (jGet "fechaPagoCuota") =
      ls.map (fun l => some (JVal.str
        (fmtDate (addRelative d l.months l.days)))) := by
  intro ls
  induction ls with
  | nil => intro idx alloc; rfl
  | cons l rest ih =>
    intro idx alloc
    simp only [buildDues, List.map_cons]
    congr 1
    exact ih (idx + 1) _

lemma insertByDays_perm (x : PaymentTermLine) (ls : List PaymentTermLine) :
    List.Perm (insertByDays x ls) (x :: ls) := by
  induction ls with
  | nil => exact List.Perm.refl _
  | cons y ys ih =>
    unfold insertByDays
    split
    · exact (ih.cons y).trans (List.Perm.swap x y ys)
    · exact List.Perm.refl _

lemma sortByDays_perm (ls : List PaymentTermLine) :
    List.Perm (sortByDays ls) ls := by
  induction ls with
  | nil => exact List.Perm.refl _
  | cons a as ih =>
    exact (insertByDays_perm a (sortByDays as)).trans (ih.cons a)

lemma insertByDays_sorted (x : PaymentTermLine) (ls : List PaymentTermLine)
    (h : List.Sorted (fun a b : PaymentTermLine => a.days ≤ b.days) ls) :
    List.Sorted (fun a b : PaymentTermLine => a.days ≤ b.days)
      (insertByDays x ls) := by
  induction ls with
  | nil => simp [insertByDays]
  | cons y ys ih =>
    rw [List.sorted_cons] at h
    unfold insertByDays
    split
    case isTrue hle =>
      rw [List.sorted_cons]
      constructor
      · intro b hb
        rw [(insertByDays_perm x ys).mem_iff, List.mem_cons] at hb
        rcases hb with hb | hb
        · subst hb; omega
        · exact h.1 b hb
      · exact ih h.2
    case isFalse hgt =>
      rw [List.sorted_cons]
      constructor
      · intro b hb
        rw [List.mem_cons] at hb
        rcases hb with hb | hb
        · subst hb; omega
        · have := h.1 b hb
          omega
      · rw [List.sorted_cons]
        exact ⟨h.1, h.2⟩

lemma sortByDays_sorted (ls : List PaymentTermLine) :
    List.Sorted (fun a b : PaymentTermLine => a.days ≤ b.days)
      (sortByDays ls) := by
  induction ls with
  | nil => simp [sortByDays]
  | cons a as ih => exact insertByDays_sorted a (sortByDays as) ih

lemma insertByDays_filter (x : PaymentTermLine) (ls : List PaymentTermLine)
    (d0 : Int) :
    (insertByDays x ls).filter (fun l => l.days == d0) =
      (if x.days == d0 then
        x :: ls.filter (fun l => l.days == d0)
      else ls.filter (fun l => l.days == d0)) := by
  induction ls with
  | nil =>
    show [x].filter (fun l => l.days == d0) = _
    simp only [List.filter_cons, List.filter_nil]
  | cons y ys ih =>
    unfold insertByDays
    split
    case isTrue hlt =>
      by_cases hx : x.days = d0
      · have hy : (y.days == d0) = false := by
          simp only [beq_eq_false_iff_ne, ne_eq]
          omega
        have hx2 : (x.days == d0) = true := by simp [hx]
        simp only [List.filter_cons, hy, Bool.false_eq_true, if_false, ih,
          hx2, if_true]
      · have hx2 : (x.days == d0) = false := by simp [hx]
        simp only [List.filter_cons, hx2, Bool.false_eq_true, if_false, ih]
    case isFalse hge =>
      rw [List.filter_cons]

/-- Stability of the embedded sort: for every day offset, the lines with
that offset appear in the sorted output in their original order — the
behaviour of Python `sorted`, which `recordset.sorted(key)` delegates
to. -/
lemma sortByDays_filter (ls : List PaymentTermLine) (d0 : Int) :
    (sortByDays ls).filter (fun l => l.days == d0) =
      ls.filter (fun l => l.days == d0) := by
  induction ls with
  | nil => rfl
  | cons a as ih =>
    show (insertByDays a (sortByDays as)).filter _ = _
    rw [insertByDays_filter, List.filter_cons]
    by_cases ha : a.days = d0
    · have hb : (a.days == d0) = true := by simp [ha]
      simp only [hb, if_true, ih]
    · have hb : (a.days == d0) = false := by simp [ha]
      simp only [hb, Bool.false_eq_true, if_false, ih]

def termPercent3070 : PaymentTerm :=
  ⟨7, [⟨"percent", 30, 0, 0⟩, ⟨"percent", 70, 0, 30⟩]⟩

def termFixedBalance : PaymentTerm :=
  ⟨8, [⟨"fixed", 40, 0, 0⟩, ⟨"balance", 0, 0, 0⟩]⟩

def invoiceCredit30 : Invoice :=
  { name := "F001-3",
    invoice_date := ⟨2025, 1, 15⟩,
    invoice_date_due := ⟨2025, 2, 14⟩,
    l10n_latam_document_type_code := "01",
    l10n_pe_edi_operation_type_code := some "0101",
    company_id := ⟨1, some "20100000001", "Emisor SAC", none, none, none,
      none, none, none, some "user", some "pass", true⟩,
    partner_id := ⟨some "6", some "20600000001", "Cliente SAC", none, none,
      none, none⟩,
    invoice_line_ids := [],
    amount_total := 100,
    amount_tax := 0,
    amount_untaxed := 100,
    currency_name := "PEN",
    invoice_payment_term_id := some termPercent3070,
    narration := none,
    l10n_pe_edi_detraction_type_id := none,
    l10n_pe_edi_detraction_payment_code := none,
    l10n_pe_edi_detraction_bank_acc := none,
    l10n_pe_edi_total_detraction := 0 }

def invoiceCredit40 : Invoice :=
  { invoiceCredit30 with
    name := "F001-4",
    invoice_payment_term_id := some termFixedBalance }

/-- C4: for a credit invoice (payment term set and different from the
immediate reference term) the payload's facturaNegociable carries mode
Credito and the dues built from the term's lines sorted by day offset; the
dues' amounts are exactly the spec allocation (balance = net minus prior
allocation, percent = rounded percentage of net, fixed = rounded fixed
amount, other = 0) in order; the due identifiers are Cuota001, Cuota002, …
by position; each due date is the issue date plus the line's month and day
offsets; the sort is a stable permutation sorted by the day offset (lines
with equal offsets keep their original order, as Python sorted does); and
on the two spec examples (percent 30/70 on net 100, and fixed 40 then
balance with equal day offsets on net 100) the rendered amounts are
30.00/70.00 and 40.00/60.00. -/
theorem c4_installment_allocation :
    (∀ (immediateId : Option Nat) (inv : Invoice) (t : PaymentTerm),
      inv.invoice_payment_term_id = some t →
      isCredit immediateId inv = true →
      jGet "modoPago" (prepareHkaPaymentMethod immediateId inv) =
        some (.str "Credito") ∧
      jGet "cuotasFactura" (prepareHkaPaymentMethod immediateId inv) =
        some (.arr (buildDues inv.invoice_date (netAmount inv)
          (sortByDays t.line_ids) 1 0))) ∧
    (∀ (d : Date) (net : ℚ) (ls : List PaymentTermLine) (idx : Nat)
       (alloc : ℚ),
      (buildDues d net ls idx alloc).map (jGet "montoPagoCuota") =
        (specDueAmounts net ls alloc).map
          (fun a => some (JVal.str (fmt2 a)))) ∧
    (∀ (d : Date) (net : ℚ) (ls : List PaymentTermLine) (alloc : ℚ),
      (buildDues d net ls 1 alloc).map (jGet "identificadorCuota") =
        (List.range ls.length).map
          (fun k => some (JVal.str (cuotaId (1 + k))))) ∧
    (∀ (d : Date) (net : ℚ) (ls : List PaymentTermLine) (idx : Nat)
       (alloc : ℚ),
      (buildDues d net ls idx alloc).map (jGet "fechaPagoCuota") =
        ls.map (fun l => some (JVal.str
          (fmtDate (addRelative d l.months l.days))))) ∧
    (∀ ls : List PaymentTermLine,
      List.Sorted (fun a b : PaymentTermLine => a.days ≤ b.days)
        (sortByDays ls) ∧
      List.Perm (sortByDays ls) ls) ∧
    (∀ (ls : List PaymentTermLine) (d0 : Int),
      (sortByDays ls).filter (fun l => l.days == d0) =
        ls.filter (fun l => l.days == d0)) ∧
    ((buildDues invoiceCredit30.invoice_date (netAmount invoiceCredit30)
        (sortByDays termPercent3070.line_ids) 1 0).map
        (jGet "montoPagoCuota") =
      [some (JVal.str "30.00"), some (JVal.str "70.00")]) ∧
    ((buildDues invoiceCredit40.invoice_date (netAmount invoiceCredit40)
        (sortByDays termFixedBalance.line_ids) 1 0).map
        (jGet "montoPagoCuota") =
      [some (JVal.str "40.00"), some (JVal.str "60.00")]) := by
  refine ⟨?_, buildDues_amounts, ?_, buildDues_dates, ?_, sortByDays_filter,
    ?_, ?_⟩
  · intro imm inv t ht hc
    unfold prepareHkaPaymentMethod
    rw [hc, ht]
    exact ⟨rfl, rfl⟩
  · intro d net ls alloc
    exact buildDues_ids d net ls 1 alloc
  · intro ls
    exact ⟨sortByDays_sorted ls, sortByDays_perm ls⟩
  · have h0 : (buildDues invoiceCredit30.invoice_date
        (netAmount invoiceCredit30)
        (sortByDays termPercent3070.line_ids) 1 0).map
        (jGet "montoPagoCuota") =
        [some (JVal.str (fmt2 (round2 (netAmount invoiceCredit30 *
           30 / 100)))),
         some (JVal.str (fmt2 (round2 (netAmount invoiceCredit30 *
           70 / 100))))] := rfl
    rw [h0]
    rw [show netAmount invoiceCredit30 = ((100 : Int) : ℚ) from by
      show (100 : ℚ) - 0 = ((100 : Int) : ℚ)
      push_cast
      norm_num]
    rw [show ((100 : Int) : ℚ) * 30 / 100 = ((30 : Int) : ℚ) from by
      push_cast; norm_num]
    rw [show ((100 : Int) : ℚ) * 70 / 100 = ((70 : Int) : ℚ) from by
      push_cast; norm_num]
    simp only [round2_intCast, fmt2_intCast]
    rfl
  · have h0 : (buildDues invoiceCredit40.invoice_date
        (netAmount invoiceCredit40)
        (sortByDays termFixedBalance.line_ids) 1 0).map
        (jGet "montoPagoCuota") =
        [some (JVal.str (fmt2 (round2 (40 : ℚ)))),
         some (JVal.str (fmt2 (netAmount invoiceCredit40 -
           (0 + round2 (40 : ℚ)))))] := rfl
    rw [h0]
    rw [show (40 : ℚ) = ((40 : Int) : ℚ) from by norm_num]
    simp only [round2_intCast]
    rw [show netAmount invoiceCredit40 = ((100 : Int) : ℚ) from by
      show (100 : ℚ) - 0 = ((100 : Int) : ℚ)
      push_cast
      norm_num]
    rw [show ((100 : Int) : ℚ) - (0 + ((40 : Int) : ℚ)) =
      ((60 : Int) : ℚ) from by push_cast; norm_num]
    simp only [fmt2_intCast]
    rfl

/-- Witness for C4 at the concrete credit invoice with the
percent-30/percent-70 term and an immediate-term id different from the
term's id. -/
theorem c4_installment_allocation_witness :
    jGet "modoPago" (prepareHkaPaymentMethod (some 1) invoiceCredit30) =
      some (.str "Credito") ∧
    jGet "cuotasFactura" (prepareHkaPaymentMethod (some 1) invoiceCredit30) =
      some (.arr (buildDues invoiceCredit30.invoice_date
        (netAmount invoiceCredit30)
        (sortByDays termPercent3070.line_ids) 1 0)) :=
  c4_installment_allocation.1 (some 1) invoiceCredit30 termPercent3070
    rfl rfl

end HKA
